import Mathlib

/-!
Verification of the `Markdown` converter in `src/markdown.py`.

Lines and texts are modelled as `List Char`.  Each regular expression of the
source is translated into an explicit, deterministic matching function that
mirrors Python `re.search` semantics for that particular pattern (all the
patterns are anchored or simple enough that backtracking is fully determined;
the derivations are commented at each matcher).  Python exceptions
(`ValueError` from `int(...)` and tuple unpacking, `IndexError` from a missing
list element) are modelled with `Except PyErr`.  The external YAML decoder is a
parameter of the conversion, as the spec treats front-matter decoding as an
external collaborator.
-/

set_option maxRecDepth 20000

abbrev Str := List Char

/-- Shorthand turning a string literal into the `List Char` model type. -/
def str (s : String) : Str := s.data

/-- The backtick character (U+0060). -/
def btick : Char := Char.ofNat 96

inductive PyErr where
  | valueError
  | indexError
  deriving DecidableEq, Repr

/-- Python `\s` on the inputs this program sees (ASCII whitespace).  The
source patterns use `\s` for the separator after `#`/`!` runs and for list
indentation. -/
def isPySpace (c : Char) : Bool :=
  c = ' ' ∨ c = '\t' ∨ c = '\n' ∨ c = '\r' ∨ c = '\x0b' ∨ c = '\x0c'

/-- One step of Python `str.replace`: fuelled so that it is structural.  The
fuel is always instantiated with the length of the subject string, which is
an upper bound on the number of steps (each step consumes at least one
character of the subject when `old` is nonempty). -/
def replaceAllFuel (old new : Str) : Nat → Str → Str
  | 0, s => s
  | fuel + 1, s =>
    match s with
    | [] => []
    | c :: rest =>
      if old.isPrefixOf (c :: rest) ∧ old ≠ [] then
        new ++ replaceAllFuel old new fuel ((c :: rest).drop old.length)
      else
        c :: replaceAllFuel old new fuel rest

/-- Python `s.replace(old, new)` (non-overlapping, left to right). -/
def replaceAll (old new s : Str) : Str := replaceAllFuel old new s.length s

/-- Python `s.split(sep)` for a single-character separator. -/
def pySplitChar (sep : Char) : Str → List Str
  | [] => [[]]
  | c :: rest =>
    if c = sep then [] :: pySplitChar sep rest
    else
      match pySplitChar sep rest with
      | [] => [[c]]
      | p :: ps => (c :: p) :: ps

/-- Python `sep.join(parts)`. -/
def joinWith (sep : Str) : List Str → Str
  | [] => []
  | [l] => l
  | l :: ls => l ++ sep ++ joinWith sep ls

/-- Splits `s` at the first occurrence of `sep`, if any. -/
def splitOnceOn (sep : Str) : Str → Option (Str × Str)
  | [] => none
  | c :: rest =>
    if sep.isPrefixOf (c :: rest) ∧ sep ≠ [] then
      some ([], (c :: rest).drop sep.length)
    else
      (splitOnceOn sep rest).map fun p => (c :: p.1, p.2)

/-- Python `s.split(sep, 2)`: at most two splits, on the first two
occurrences of `sep`. -/
def pySplit2 (sep text : Str) : List Str :=
  match splitOnceOn sep text with
  | none => [text]
  | some (a, rest) =>
    match splitOnceOn sep rest with
    | none => [a, rest]
    | some (b, rest2) => [a, b, rest2]

def digitChar : Nat → Char
  | 0 => '0' | 1 => '1' | 2 => '2' | 3 => '3' | 4 => '4'
  | 5 => '5' | 6 => '6' | 7 => '7' | 8 => '8' | _ => '9'

def natToCharsAux : Nat → Nat → Str
  | 0, _ => []
  | fuel + 1, n => if n < 10 then [digitChar n] else natToCharsAux fuel (n / 10) ++ [digitChar (n % 10)]

/-- Decimal rendering of a natural number (as Python `str` of an `int`). -/
def natToChars (n : Nat) : Str := natToCharsAux (n + 1) n

/-- Decimal rendering of an integer. -/
def intToChars (i : Int) : Str :=
  if i < 0 then '-' :: natToChars i.natAbs else natToChars i.natAbs

/-- Digit run with single underscores between digits, as Python `int(...)`
accepts ("1_2" is 12, "1__2" or "1_" raise). -/
def pyIntDigitsOk : Str → Bool
  | [] => true
  | '_' :: d :: rest => d.isDigit ∧ pyIntDigitsOk (d :: rest)
  | d :: rest => d.isDigit ∧ pyIntDigitsOk rest

def pyStripWs (s : Str) : Str :=
  ((s.dropWhile isPySpace).reverse.dropWhile isPySpace).reverse

def pyIntValue (ds : Str) : Nat :=
  (ds.filter (· ≠ '_')).foldl (fun acc c => acc * 10 + (c.toNat - 48)) 0

/-- Python `int(s)`: strips whitespace, optional sign, decimal digits with
optional single underscores between digits; anything else raises ValueError. -/
def pyInt (s : Str) : Except PyErr Int :=
  let t := pyStripWs s
  match t with
  | [] => .error .valueError
  | '+' :: ds =>
    if ds ≠ [] ∧ ds.headD ' ' ≠ '_' ∧ pyIntDigitsOk ds then .ok (pyIntValue ds) else .error .valueError
  | '-' :: ds =>
    if ds ≠ [] ∧ ds.headD ' ' ≠ '_' ∧ pyIntDigitsOk ds then .ok (-(pyIntValue ds : Int)) else .error .valueError
  | ds =>
    if ds.headD ' ' ≠ '_' ∧ pyIntDigitsOk ds then .ok (pyIntValue ds) else .error .valueError

/-- `line.replace("<", "&lt;").replace(">", "&gt;")`. -/
def escapeHtml (l : Str) : Str :=
  replaceAll (str (">")) (str ("&gt;")) (replaceAll (str ("<")) (str ("&lt;")) l)

/-- Index of the last occurrence of `c` in `l`, if any. -/
def lastIdx (c : Char) : Str → Option Nat
  | [] => none
  | x :: xs =>
    match lastIdx c xs with
    | some i => some (i + 1)
    | none => if x = c then some 0 else none

/-- `os.path.splitext(p)[1]`: the extension starting at the last dot that
lies after the last path separator and is preceded by at least one non-dot
character of the basename. -/
def splitextExt (p : Str) : Str :=
  match lastIdx '.' p with
  | none => []
  | some d =>
    let sOk : Nat :=
      match lastIdx '/' p with
      | none => 0
      | some s => s + 1
    if sOk ≤ d ∧ ((p.drop sOk).take (d - sOk)).any (· ≠ '.') then p.drop d else []

/-! ## Regex matchers

Each matcher mirrors one compiled pattern of `src/markdown.py`.  All the
block patterns are anchored (`^...`), so `re.search` coincides with a match
at the start of the line. -/

/-- `^(#+)\s(.+)`: maximal run of one or more given marker characters, one
whitespace character, then a nonempty rest.  (The greedy run cannot
backtrack: a shorter run would put the marker character where `\s` must
match.)  Shared by the heading (`#`) and notice (`!`) detectors. -/
def runMatch (mark : Char) (l : Str) : Option (Nat × Str) :=
  let run := l.takeWhile (· = mark)
  if run.length ≥ 1 then
    match l.drop run.length with
    | c :: rest => if isPySpace c ∧ rest ≠ [] then some (run.length, rest) else none
    | [] => none
  else none

/-- `^<(?:h[1-6]|pre|ul|ol|li|img|blockquote|div)` (`_re_no_paragraph`). -/
def noParagraph (l : Str) : Bool :=
  [str ("<h1"), str ("<h2"), str ("<h3"), str ("<h4"), str ("<h5"), str ("<h6"),
   str ("<pre"), str ("<ul"), str ("<ol"), str ("<li"), str ("<img"),
   str ("<blockquote"), str ("<div")].any (·.isPrefixOf l)

/-- `^https?://` (`_re_external`). -/
def isExternal (u : Str) : Bool :=
  (str ("http://")).isPrefixOf u || (str ("https://")).isPrefixOf u

/-- `^!\[([^\]]+)\]\(([^\)\?]+)\??([^\)]*)\)` (`_re_media`), returning
(alt, src, attribute string).  The character-class runs are maximal and
cannot backtrack productively (shrinking a `[^x]+` run leaves a non-`x`
character where `x` must match); if the optional `?` is taken but no closing
`)` follows, every backtracking alternative also ends without `)`, so the
whole match fails. -/
def mediaMatch (l : Str) : Option (Str × Str × Str) :=
  match l with
  | c1 :: c2 :: rest =>
    if c1 = '!' ∧ c2 = '[' then
      let alt := rest.takeWhile (· ≠ ']')
      if alt = [] then none else
      match rest.drop alt.length with
      | ']' :: '(' :: rest2 =>
        let src := rest2.takeWhile (fun c => c ≠ ')' ∧ c ≠ '?')
        if src = [] then none else
        match rest2.drop src.length with
        | ')' :: _ => some (alt, src, [])
        | '?' :: rest3 =>
          let attrs := rest3.takeWhile (· ≠ ')')
          match rest3.drop attrs.length with
          | ')' :: _ => some (alt, src, attrs)
          | _ => none
        | _ => none
      | _ => none
    else none
  | _ => none

/-- `^([\s]*)\*\s(.*)` and `^([\s]*)-\s(.*)` (`_re_list_ul_1/2`):
whitespace run, the marker, one whitespace character, rest of line.
Returns (indent, content); the whole line is the match. -/
def listUl (mark : Char) (l : Str) : Option (Str × Str) :=
  let ind := l.takeWhile isPySpace
  match l.drop ind.length with
  | m :: c :: rest => if m = mark ∧ isPySpace c then some (ind, rest) else none
  | _ => none

/-- `^([\s]*)[0-9]+\.\s(.*)` (`_re_list_ol`). -/
def listOl (l : Str) : Option (Str × Str) :=
  let ind := l.takeWhile isPySpace
  let rest1 := l.drop ind.length
  let ds := rest1.takeWhile Char.isDigit
  if ds = [] then none else
  match rest1.drop ds.length with
  | '.' :: c :: rest => if isPySpace c then some (ind, rest) else none
  | _ => none

/-- Lazy content for ``` `(.+?)` ```: the shortest nonempty prefix of `l`
followed by a backtick. -/
def grab1 : Str → Option Str
  | [] => none
  | c :: rest => if rest.take 1 = [btick] then some [c] else (grab1 rest).map (c :: ·)

/-- `re.search` for ``` `(.+?)` ``` (`_re_code_1`): earliest start position
holding a backtick from which a closing backtick at distance at least two
exists; lazy content.  Returns group 1. -/
def scanCode1 : Str → Option Str
  | [] => none
  | c :: rest =>
    if c = btick then
      match grab1 rest with
      | some content => some content
      | none => scanCode1 rest
    else scanCode1 rest

/-- Lazy content for ``(.+?)`` between double backticks: the shortest
nonempty prefix of `l` followed by two backticks. -/
def grab2 : Str → Option Str
  | [] => none
  | c :: rest => if rest.take 2 = [btick, btick] then some [c] else (grab2 rest).map (c :: ·)

/-- `re.search` for the double-backtick pattern (`_re_code_2`). -/
def scanCode2 : Str → Option Str
  | [] => none
  | c :: rest =>
    if c = btick ∧ rest.take 1 = [btick] then
      match grab2 rest.tail with
      | some content => some content
      | none => scanCode2 rest
    else scanCode2 rest

/-- Greedy `[^m]+` run followed by the doubled marker, for
`\*\*([^\*]+)\*\*` and `~~([^~]+)~~`: the run is maximal, so if the two
markers do not follow it no shorter run can succeed either. -/
def grabDouble (mark : Char) (l : Str) : Option Str :=
  let run := l.takeWhile (· ≠ mark)
  if run = [] then none
  else if (l.drop run.length).take 2 = [mark, mark] then some run else none

/-- `re.search` for `\*\*([^\*]+)\*\*` (`_re_bold`) / `~~([^~]+)~~`
(`_re_deleted`). -/
def scanDouble (mark : Char) : Str → Option Str
  | [] => none
  | c :: rest =>
    if c = mark ∧ rest.take 1 = [mark] then
      match grabDouble mark rest.tail with
      | some content => some content
      | none => scanDouble mark rest
    else scanDouble mark rest

/-- Greedy `[^\*]+` run followed by a single closing marker. -/
def grabSingle (mark : Char) (l : Str) : Option Str :=
  let run := l.takeWhile (· ≠ mark)
  if run = [] then none
  else if (l.drop run.length).take 1 = [mark] then some run else none

/-- `re.search` for `\*([^\*]+)\*` (`_re_italic`). -/
def scanSingle (mark : Char) : Str → Option Str
  | [] => none
  | c :: rest =>
    if c = mark then
      match grabSingle mark rest with
      | some content => some content
      | none => scanSingle mark rest
    else scanSingle mark rest

/-- `re.search` for `\[([^\]]+)\]\(([^\)]+)\)` (`_re_link`), returning
(text, url). -/
def grabLink (l : Str) : Option (Str × Str) :=
  let txt := l.takeWhile (· ≠ ']')
  if txt = [] then none else
  match l.drop txt.length with
  | ']' :: '(' :: rest2 =>
    let url := rest2.takeWhile (· ≠ ')')
    if url = [] then none else
    if (rest2.drop url.length).take 1 = [')'] then some (txt, url) else none
  | _ => none

def scanLink : Str → Option (Str × Str)
  | [] => none
  | c :: rest =>
    if c = '[' then
      match grabLink rest with
      | some p => some p
      | none => scanLink rest
    else scanLink rest

/-! ## Converter state

`MDState` collects the mutable fields the Python class carries across lines
(`_lines`, `_extracted`, `_line_empty`, `_in_fence`, `_in_paragraph`,
`_in_blockquote`, `_list_type`).  `events` is a ghost trace recorded at
exactly the points where a handler appends a synthetic open/close tag line
to `_lines`; it adds no behaviour and exists to state the structural-balance
claim about synthetic tags without confusing them with content lines. -/

inductive MDEvent where
  | bqOpen | bqClose | listOpen | listClose | pOpen | pClose
  deriving DecidableEq, Repr

structure MDState where
  lines : List Str
  events : List MDEvent
  extracted : List (Str × Str)
  lineEmpty : Bool
  inFence : Bool
  inParagraph : Bool
  inBlockquote : Bool
  listType : List Str
  deriving DecidableEq, Repr

/-- `_reset`. -/
def initState : MDState :=
  { lines := [], events := [], extracted := [], lineEmpty := false,
    inFence := false, inParagraph := false, inBlockquote := false, listType := [] }

/-- `_last_line_empty`. -/
def lastLineEmpty (st : MDState) : Bool :=
  match st.lines.getLast? with
  | none => true
  | some l => l.isEmpty

/-- `_make_tidy`. -/
def makeTidy (text : Str) : Str :=
  let text := replaceAll (str ("\r\n")) (str ("\n")) text
  let text := replaceAll (str ("\r")) (str ("\n")) text
  let text := replaceAll (str ("\t")) (str ("    ")) text
  text ++ str ("\n\n")

/-- `_metadata`: front-matter split.  Returns the segment handed to the YAML
decoder (none when the text does not start with the delimiter) and the body.
`text.split("---", 2)` producing fewer than three parts makes the Python
three-way unpacking raise ValueError. -/
def metadataSplit (text : Str) : Except PyErr (Option Str × Str) :=
  if text.take 3 = str ("---") then
    match pySplit2 (str ("---")) text with
    | [_, seg, body] => .ok (some seg, body)
    | _ => .error .valueError
  else .ok (none, text)

/-- `_fence`. -/
def fenceStep (st : MDState) (line : Str) : MDState × Str :=
  if st.lineEmpty then (st, line)
  else if line.take 3 = str ("```") then
    if !st.inFence then
      ({ st with inFence := true },
       str ("<pre><code class=\"language-") ++ pyStripWs (line.drop 3) ++ str ("\">"))
    else ({ st with inFence := false }, str ("</code></pre>"))
  else if st.inFence then (st, escapeHtml line)
  else (st, line)

/-- `_heading`. -/
def headingStep (line : Str) : Str :=
  match runMatch '#' line with
  | some (k, rest) =>
    let d := min k 6
    str ("<h") ++ natToChars d ++ str (">") ++ rest ++ str ("</h") ++ natToChars d ++ str (">")
  | none => line

/-- The severity class list built by the `match` statement in `_notices`
(no `case _`, so run lengths outside 1-4 add nothing). -/
def noticeClasses (k : Nat) : List Str :=
  match k with
  | 1 => [str ("yellow")]
  | 2 => [str ("red")]
  | 3 => [str ("blue")]
  | 4 => [str ("green")]
  | _ => []

/-- `_notices`. -/
def noticesStep (line : Str) : Str :=
  match runMatch '!' line with
  | some (k, rest) =>
    str ("<div class=\"") ++ joinWith (str (" ")) (str ("notices") :: noticeClasses k)
      ++ str ("\">") ++ rest ++ str ("</div>")
  | none => line

/-- Base-URL resolution shared verbatim by `_media` (src), `_media`
(poster) and `_link` (href). -/
def resolveUrl (base url : Str) : Str :=
  if base ≠ [] ∧ isExternal url = false then base ++ '/' :: url else url

/-- One `attribute` iteration of the loop in `_media`.  `attribute` is
`a.split("=")`; a missing `attribute[1]` raises IndexError, a bad
`int(...)` raises ValueError, and `w, h = v.split(",")` with a part count
other than two raises ValueError. -/
def processAttr (base : Str) (acc : List Str × Str) (a : Str) : Except PyErr (List Str × Str) :=
  let parts := pySplitChar '=' a
  let k := parts.headD []
  let attrs := acc.1
  let align := acc.2
  if k = str ("resize") then
    match parts.get? 1 with
    | none => .error .indexError
    | some v =>
      if v.contains ',' then
        match pySplitChar ',' v with
        | [w, h] =>
          match pyInt h with
          | .error e => .error e
          | .ok hi =>
            match pyInt w with
            | .error e => .error e
            | .ok wi =>
              .ok (attrs ++ [str ("height=\"") ++ intToChars hi ++ str ("\""),
                             str ("width=\"") ++ intToChars wi ++ str ("\"")], align)
        | _ => .error .valueError
      else
        match pyInt v with
        | .error e => .error e
        | .ok hi => .ok (attrs ++ [str ("height=\"") ++ intToChars hi ++ str ("\"")], align)
  else if k = str ("align") then
    match parts.get? 1 with
    | none => .error .indexError
    | some v =>
      if v = str ("l") ∨ v = str ("L") ∨ v = str ("left") ∨ v = str ("Left") then
        .ok (attrs, str ("align-left"))
      else if v = str ("r") ∨ v = str ("R") ∨ v = str ("right") ∨ v = str ("Right") then
        .ok (attrs, str ("align-right"))
      else .ok (attrs, align)
  else if k = str ("autoplay") ∨ k = str ("controls") ∨ k = str ("loop") ∨ k = str ("muted") then
    .ok (attrs ++ [k], align)
  else if k = str ("preload-poster") then
    let attrs := attrs ++ [str ("preload=\"none\"")]
    if parts.length = 2 then
      let v := (parts.get? 1).getD []
      .ok (attrs ++ [str ("poster=\"") ++ resolveUrl base v ++ str ("\"")], align)
    else .ok (attrs, align)
  else .ok (attrs, align)

/-- `_media`. -/
def mediaStep (base : Str) (line : Str) : Except PyErr Str :=
  match mediaMatch line with
  | none => .ok line
  | some (alt, src0, attrStr) =>
    let src := resolveUrl base src0
    let acc0 : List Str × Str := ([], str ("align-center"))
    let accE : Except PyErr (List Str × Str) :=
      if attrStr ≠ [] then (pySplitChar '&' attrStr).foldlM (processAttr base) acc0
      else .ok acc0
    match accE with
    | .error e => .error e
    | .ok (attrs, align) =>
      let ext := (splitextExt src).map Char.toLower
      if ext = str (".png") ∨ ext = str (".jpg") ∨ ext = str (".gif") ∨ ext = str (".jpeg") then
        let attrs := attrs ++ [str ("loading=\"lazy\"")]
        .ok (str ("<figure class=\"") ++ align ++ str ("\"><img src=\"") ++ src
          ++ str ("\" alt=\"") ++ alt ++ str ("\" ") ++ joinWith (str (" ")) attrs
          ++ str ("></figure>"))
      else if ext = str (".mp4") ∨ ext = str (".m4v") then
        let attrs := if attrs.contains (str ("autoplay")) then attrs ++ [str ("playsinline")] else attrs
        .ok (str ("<figure class=\"") ++ align ++ str ("\"><video ") ++ joinWith (str (" ")) attrs
          ++ str ("><source src=\"") ++ src ++ str ("\" alt=\"") ++ alt
          ++ str ("\" type=\"video/") ++ ext.drop 1 ++ str ("\"></video></figure>"))
      else .ok line

/-- `_is_more`. -/
def isMoreStep (line : Str) : Str :=
  if line.map Char.toLower = str ("===") ∨ line.map Char.toLower = str ("<!-- more --!>") then []
  else line

/-- The inner `while m:` loop of `_extract_code` for one pattern.  Each
iteration replaces every occurrence of the matched span (which contains at
least two backticks) by a key containing none, so the number of backticks
strictly decreases; fuel `count(backtick) + 1` therefore never runs out. -/
def extractLoop (ticks : Nat) (scan : Str → Option Str) :
    Nat → List (Str × Str) → Str → List (Str × Str) × Str
  | 0, ex, l => (ex, l)
  | fuel + 1, ex, l =>
    match scan l with
    | some content =>
      let value := str ("<code>") ++ escapeHtml content ++ str ("</code>")
      let key := str ("###<EXTRACTED-") ++ natToChars ex.length ++ str (">###")
      let delim := List.replicate ticks btick
      extractLoop ticks scan fuel (ex ++ [(key, value)]) (replaceAll (delim ++ content ++ delim) key l)
    | none => (ex, l)

/-- `_extract_code`: the double-backtick pattern is processed first
(`re_code.pop()` takes the last element of `[_re_code_1, _re_code_2]`),
then the single-backtick pattern. -/
def extractCode (ex : List (Str × Str)) (l : Str) : List (Str × Str) × Str :=
  let p := extractLoop 2 scanCode2 (l.count btick + 1) ex l
  extractLoop 1 scanCode1 (p.2.count btick + 1) p.1 p.2

/-- `_insert_code` (the table is iterated in insertion order, then cleared
by the caller). -/
def insertCode (ex : List (Str × Str)) (l : Str) : Str :=
  ex.foldl (fun l p => replaceAll p.1 p.2 l) l

/-- The `while m:` substitution loop shared by `_bold`, `_italic`,
`_deleted`.  Every iteration removes at least two marker characters (the
match delimiters) and inserts none, so fuel `count(marker) + 1` suffices. -/
def emphLoop (scan : Str → Option Str) (mk0 mkNew : Str → Str) : Nat → Str → Str
  | 0, l => l
  | fuel + 1, l =>
    match scan l with
    | some content => emphLoop scan mk0 mkNew fuel (replaceAll (mk0 content) (mkNew content) l)
    | none => l

/-- `_bold`. -/
def boldStep (l : Str) : Str :=
  emphLoop (scanDouble '*')
    (fun c => str ("**") ++ c ++ str ("**"))
    (fun c => str ("<em>") ++ c ++ str ("</em>"))
    (l.count '*' + 1) l

/-- `_italic`. -/
def italicStep (l : Str) : Str :=
  emphLoop (scanSingle '*')
    (fun c => '*' :: c ++ ['*'])
    (fun c => str ("<i>") ++ c ++ str ("</i>"))
    (l.count '*' + 1) l

/-- `_deleted`. -/
def deletedStep (l : Str) : Str :=
  emphLoop (scanDouble '~')
    (fun c => str ("~~") ++ c ++ str ("~~"))
    (fun c => str ("<del>") ++ c ++ str ("</del>"))
    (l.count '~' + 1) l

/-- The `while m:` loop of `_link`.  Each iteration removes the closing
parenthesis of the match and the replacement contains no `)` beyond those
already inside the matched text, so fuel `count(close paren) + 1`
suffices. -/
def linkLoop (base : Str) : Nat → Str → Str
  | 0, l => l
  | fuel + 1, l =>
    match scanLink l with
    | some (txt, url) =>
      let href := resolveUrl base url
      linkLoop base fuel
        (replaceAll ('[' :: txt ++ ']' :: '(' :: url ++ [')'])
          (str ("<a href=\"") ++ href ++ str ("\">") ++ txt ++ str ("</a>")) l)
    | none => l

/-- `_link`. -/
def linkStep (base l : Str) : Str := linkLoop base (l.count ')' + 1) l

/-- `_blockquote`. -/
def blockquoteStep (st : MDState) (line : Str) : MDState × Str :=
  let p :=
    if st.lineEmpty = false ∧ line.take 2 = str ("> ") then
      if st.inBlockquote = false then
        ({ st with lines := st.lines ++ [str ("<blockquote>")],
                   events := st.events ++ [.bqOpen],
                   inBlockquote := true }, line.drop 2)
      else (st, line.drop 2)
    else (st, line)
  let st := p.1
  if st.lineEmpty = true ∧ st.inBlockquote = true then
    ({ st with lines := st.lines ++ [str ("</blockquote>")],
               events := st.events ++ [.bqClose],
               inBlockquote := false }, p.2)
  else (st, p.2)

/-- The `while ... < self._list_depth` pop loop of `_list`: closing tags are
emitted for the dropped suffix of the stack in last-in-first-out order. -/
def closeListsTo (target : Nat) (st : MDState) : MDState :=
  if target < st.listType.length then
    let popped := (st.listType.drop target).reverse
    { st with listType := st.listType.take target,
              lines := st.lines ++ popped.map (fun t => str ("</") ++ t ++ str (">")),
              events := st.events ++ popped.map (fun _ => .listClose) }
  else st

/-- One iteration of the `while len(re_list) > 0` loop of `_list`.  On a
match, `line.replace(m.group(0), ...)` rewrites the whole line because the
list patterns end in `(.*)` and so match the entire line. -/
def listIter (pat : Str → Option (Str × Str)) (tag : Str) (st : MDState) (line : Str) :
    MDState × Str :=
  let p :=
    match pat line with
    | some (ind, content) =>
      let target := ind.length / 4 + 1
      let st :=
        if target > st.listType.length then
          { st with listType := st.listType ++ [tag],
                    lines := st.lines ++ [str ("<") ++ tag ++ str (">")],
                    events := st.events ++ [.listOpen] }
        else st
      let line := str ("<li>") ++ content ++ str ("</li>")
      (closeListsTo target st, line)
    | none => (st, line)
  if st.lineEmpty then (closeListsTo 0 p.1, p.2) else p

/-- `_list`: `re_list.pop()` processes `_re_list_ul_2` (dash) first, then
`_re_list_ul_1` (asterisk), then `_re_list_ol`; the first two receive tag
`ul`, the last `ol`. -/
def listStep (st : MDState) (line : Str) : MDState × Str :=
  let p1 := listIter (listUl '-') (str ("ul")) st line
  let p2 := listIter (listUl '*') (str ("ul")) p1.1 p1.2
  listIter listOl (str ("ol")) p2.1 p2.2

/-- `_paragraph`. -/
def paragraphStep (st : MDState) (line : Str) : MDState × Str :=
  let st :=
    if lastLineEmpty st = true ∧ st.lineEmpty = false ∧ noParagraph line = false then
      { st with lines := st.lines ++ [str ("<p>")],
                events := st.events ++ [.pOpen],
                inParagraph := true }
    else st
  let st :=
    if st.lineEmpty = true ∧ lastLineEmpty st = false ∧ st.inParagraph = true then
      { st with lines := st.lines ++ [str ("</p>")],
                events := st.events ++ [.pClose],
                inParagraph := false }
    else st
  (st, line)

/-- The stateless inline part of the per-line pipeline (`_heading` through
`_insert_code` in `_parse`).  `ex0` is `self._extracted` at entry; after
`_insert_code` the Python table is cleared, which the caller performs. -/
def inlinePhase (base : Str) (ex0 : List (Str × Str)) (l : Str) : Except PyErr Str :=
  let l := headingStep l
  let l := noticesStep l
  match mediaStep base l with
  | .error e => .error e
  | .ok l =>
    let l := isMoreStep l
    let p := extractCode ex0 l
    let l := boldStep p.2
    let l := italicStep l
    let l := deletedStep l
    let l := linkStep base l
    .ok (insertCode p.1 l)

/-- One iteration of the `for line in text.split("\n")` loop of `_parse`. -/
def processLine (base : Str) (st0 : MDState) (raw : Str) : Except PyErr MDState :=
  let st1 := { st0 with lineEmpty := raw.isEmpty }
  let fr := fenceStep st1 raw
  if fr.1.inFence then .ok { fr.1 with lines := fr.1.lines ++ [fr.2] }
  else
    match inlinePhase base fr.1.extracted fr.2 with
    | .error e => .error e
    | .ok v =>
      let st2 := { fr.1 with extracted := [] }
      let b := blockquoteStep st2 v
      let li := listStep b.1 b.2
      let p := paragraphStep li.1 li.2
      .ok { p.1 with lines := p.1.lines ++ [p.2] }

/-- `_parse` over a list of lines. -/
def parseLines (base : Str) : MDState → List Str → Except PyErr MDState
  | st, [] => .ok st
  | st, l :: ls =>
    match processLine base st l with
    | .error e => .error e
    | .ok st2 => parseLines base st2 ls

/-- `convert`, with the YAML decoder abstracted as a parameter.  The result
pairs the decoded metadata (`none` models the empty `self.metadata` set when
no front matter is present) with the final parse state. -/
def convertState (Y : Type) (decode : Str → Except PyErr Y) (base text : Str) :
    Except PyErr (Option Y × MDState) :=
  let text := makeTidy text
  match metadataSplit text with
  | .error e => .error e
  | .ok (seg?, body) =>
    match seg? with
    | none =>
      match parseLines base initState (pySplitChar '\n' body) with
      | .error e => .error e
      | .ok st => .ok (none, st)
    | some seg =>
      match decode seg with
      | .error e => .error e
      | .ok y =>
        match parseLines base initState (pySplitChar '\n' body) with
        | .error e => .error e
        | .ok st => .ok (some y, st)

/-- `convert` returning `self.metadata` and `self.html`
(`"\n".join(self._lines)`). -/
def convert (Y : Type) (decode : Str → Except PyErr Y) (base text : Str) :
    Except PyErr (Option Y × Str) :=
  match convertState Y decode base text with
  | .error e => .error e
  | .ok (m, st) => .ok (m, joinWith (str ("\n")) st.lines)

/-- A decoder that always succeeds, for instantiating theorems whose claim
does not involve the metadata. -/
def okDecode : Str → Except PyErr Unit := fun _ => .ok ()

/-! ## Derived definitions used by the statements -/

/-- The output buffer of a conversion (empty if the conversion raised). -/
def resultLines (Y : Type) (r : Except PyErr (Option Y × MDState)) : List Str :=
  match r with
  | .ok p => p.2.lines
  | .error _ => []

/-- The ghost synthetic-tag trace of a conversion (empty if it raised). -/
def resultEvents (Y : Type) (r : Except PyErr (Option Y × MDState)) : List MDEvent :=
  match r with
  | .ok p => p.2.events
  | .error _ => []

/-- The blockquote prefix strip `_blockquote` applies to a nonempty line
(the line value it passes on, independently of the open/close bookkeeping). -/
def stripBq (v : Str) : Str :=
  if v.take 2 = str ("> ") then v.drop 2 else v

/-- Every synthetic open tag has exactly one matching close tag. -/
def balancedEvents (es : List MDEvent) : Prop :=
  es.count .bqOpen = es.count .bqClose ∧
  es.count .listOpen = es.count .listClose ∧
  es.count .pOpen = es.count .pClose

/-- Invariant carried across lines in the structural-balance proof: open
counts exceed close counts exactly by the currently open constructs, not in
a fence, the placeholder table is drained, and an open paragraph implies the
last emitted line is nonempty. -/
def goodState (st : MDState) : Prop :=
  st.events.count .bqOpen = st.events.count .bqClose + (if st.inBlockquote then 1 else 0) ∧
  st.events.count .listOpen = st.events.count .listClose + st.listType.length ∧
  st.events.count .pOpen = st.events.count .pClose + (if st.inParagraph then 1 else 0) ∧
  st.inFence = false ∧
  st.extracted = [] ∧
  (st.inParagraph = true → lastLineEmpty st = false)

/-- The part of `goodState` that every block handler preserves on its own:
the three count equations plus the open-paragraph/nonempty-last-line link. -/
def preGood (st : MDState) : Prop :=
  st.events.count .bqOpen = st.events.count .bqClose + (if st.inBlockquote then 1 else 0) ∧
  st.events.count .listOpen = st.events.count .listClose + st.listType.length ∧
  st.events.count .pOpen = st.events.count .pClose + (if st.inParagraph then 1 else 0) ∧
  (st.inParagraph = true → lastLineEmpty st = false)

/-- A decoder that always fails, modelling a yaml.safe_load raising. -/
def failDecode : Str → Except PyErr Unit := fun _ => .error .indexError

instance (e a : Type) [DecidableEq e] [DecidableEq a] : DecidableEq (Except e a) := fun x y =>
  match x, y with
  | .ok u, .ok v =>
    if h : u = v then .isTrue (by rw [h]) else .isFalse (by intro hc; cases hc; exact h rfl)
  | .error u, .error v =>
    if h : u = v then .isTrue (by rw [h]) else .isFalse (by intro hc; cases hc; exact h rfl)
  | .ok _, .error _ => .isFalse (by intro hc; cases hc)
  | .error _, .ok _ => .isFalse (by intro hc; cases hc)
/-! ## Helper lemmas -/

theorem takeWhile_marker_run (mark c : Char) (k : Nat) (rest : Str) (hcm : (c = mark) = False) :
    (List.replicate k mark ++ c :: rest).takeWhile (· = mark) = List.replicate k mark := by
  induction k with
  | zero => simp [List.takeWhile, hcm]
  | succ n ih => simp [List.replicate, List.takeWhile, ih]

theorem runMatch_run (mark c : Char) (k : Nat) (rest : Str)
    (hk : 1 ≤ k) (hc : isPySpace c = true) (hr : rest ≠ []) (hcm : (c = mark) = False) :
    runMatch mark (List.replicate k mark ++ c :: rest) = some (k, rest) := by
  unfold runMatch
  rw [takeWhile_marker_run mark c k rest hcm]
  have hlen : (List.replicate k mark).length = k := List.length_replicate k mark
  have hdrop : (List.replicate k mark ++ c :: rest).drop k = c :: rest := by
    have h := List.drop_left (List.replicate k mark) (c :: rest)
    rwa [hlen] at h
  simp only [hlen, hdrop]
  simp [hk, hc, hr]

theorem isPySpace_ne_bang (c : Char) (hc : isPySpace c = true) : (c = '!') = False := by
  simp only [eq_iff_iff, iff_false]
  intro h
  rw [h] at hc
  exact absurd hc (by decide)

theorem not_prefix_of_take_ne (p l t : Str) (n : Nat)
    (h1 : n ≤ l.length) (h3 : n ≤ p.length) (h2 : l.take n ≠ p.take n) :
    p.isPrefixOf (l ++ t) = false := by
  cases hb : p.isPrefixOf (l ++ t) with
  | false => rfl
  | true =>
    exfalso
    obtain ⟨s, hs⟩ := List.isPrefixOf_iff_prefix.mp hb
    apply h2
    calc l.take n = (l ++ t).take n := (List.take_append_of_le_length h1).symm
    _ = (p ++ s).take n := by rw [hs]
    _ = p.take n := List.take_append_of_le_length h3

/-- Claim C1 helper: severity classes for run lengths at least five. -/
theorem noticeClasses_big (n : Nat) : noticeClasses (n + 5) = [] := rfl

/-- C1 counterexample: the notice detector still rewrites a run of five
exclamation marks into a notices div; only the severity class is absent. -/
theorem C1_counterexample : noticesStep (str ("!!!!! x")) = str ("<div class=\"notices\">x</div>") ∧
    noticesStep (str ("!!!!! x")) ≠ str ("!!!!! x") := by decide

/-- C1: a run of k exclamation marks followed by whitespace and a message is
rewritten to a notices div whose severity class is yellow, red, blue, green
for k = 1..4, and absent (plain notices) for k of five or more. -/
theorem C1_notice_severity (k : Nat) (c : Char) (rest : Str)
    (hk : 1 ≤ k) (hc : isPySpace c = true) (hr : rest ≠ []) :
    noticesStep (List.replicate k '!' ++ c :: rest) =
      str ("<div class=\"") ++ joinWith (str (" ")) (str ("notices") :: noticeClasses k)
        ++ str ("\">") ++ rest ++ str ("</div>") ∧
    (5 ≤ k → noticeClasses k = []) ∧
    (k = 1 → noticeClasses k = [str ("yellow")]) ∧
    (k = 2 → noticeClasses k = [str ("red")]) ∧
    (k = 3 → noticeClasses k = [str ("blue")]) ∧
    (k = 4 → noticeClasses k = [str ("green")]) := by
  refine ⟨?_, ?_, ?_, ?_, ?_, ?_⟩
  · have hm := runMatch_run '!' c k rest hk hc hr (isPySpace_ne_bang c hc)
    simp [noticesStep, hm]
  · intro h5
    obtain ⟨n, rfl⟩ : ∃ n, k = n + 5 := ⟨k - 5, by omega⟩
    exact noticeClasses_big n
  · rintro rfl; rfl
  · rintro rfl; rfl
  · rintro rfl; rfl
  · rintro rfl; rfl

theorem C1_notice_severity_witness :
    1 ≤ 5 ∧ isPySpace ' ' = true ∧ str ("x") ≠ [] ∧
    (noticesStep (List.replicate 5 '!' ++ ' ' :: str ("x")) =
      str ("<div class=\"") ++ joinWith (str (" ")) (str ("notices") :: noticeClasses 5)
        ++ str ("\">") ++ str ("x") ++ str ("</div>") ∧
      (5 ≤ 5 → noticeClasses 5 = []) ∧
      (5 = 1 → noticeClasses 5 = [str ("yellow")]) ∧
      (5 = 2 → noticeClasses 5 = [str ("red")]) ∧
      (5 = 3 → noticeClasses 5 = [str ("blue")]) ∧
      (5 = 4 → noticeClasses 5 = [str ("green")])) :=
  ⟨by decide, by decide, by decide,
    C1_notice_severity 5 ' ' (str ("x")) (by decide) (by decide) (by decide)⟩

/-- C7: the three-line nested list example. -/
theorem C7_list_nesting :
    convert Unit okDecode [] (str ("* A\n    * B\n* C")) =
      .ok (none, str ("<ul>\n<li>A</li>\n<ul>\n<li>B</li>\n</ul>\n<li>C</li>\n</ul>\n\n")) ∧
    resultEvents Unit (convertState Unit okDecode [] (str ("* A\n    * B\n* C"))) =
      [.listOpen, .listOpen, .listClose, .listClose] := by decide

/-- C9: a non-integer resize value raises ValueError out of convert. -/
theorem C9_resize_value_error :
    convertState Unit okDecode [] (str ("![a](x.png?resize=abc)")) = .error .valueError ∧
    convertState Unit okDecode [] (str ("![a](x.png?resize=)")) = .error .valueError := by decide

/-- C2 counterexample: a media line preceded by a blank line is wrapped in a
paragraph, because its rendered form starts with the figure tag, which the
no-paragraph pattern does not recognize. -/
theorem C2_counterexample :
    resultLines Unit (convertState Unit okDecode [] (str ("\n![a](x.png)"))) =
      [[], str ("<p>"),
       str ("<figure class=\"align-center\"><img src=\"x.png\" alt=\"a\" loading=\"lazy\"></figure>"),
       str ("</p>"), [], []] := by decide

/-- C3 counterexample: with an unterminated fence the opened paragraph is
never closed. -/
theorem C3_counterexample :
    (resultEvents Unit (convertState Unit okDecode [] (str ("a\n```")))).count .pOpen = 1 ∧
    (resultEvents Unit (convertState Unit okDecode [] (str ("a\n```")))).count .pClose = 0 := by decide

/-- C8 counterexample: the upper-case variant LEFT is not recognized and the
figure keeps the center default class. -/
theorem C8_counterexample :
    mediaStep [] (str ("![a](x.png?align=LEFT)")) =
      .ok (str ("<figure class=\"align-center\"><img src=\"x.png\" alt=\"a\" loading=\"lazy\"></figure>")) ∧
    str ("<figure class=\"align-center\"><img src=\"x.png\" alt=\"a\" loading=\"lazy\"></figure>") ≠
      str ("<figure class=\"align-left\"><img src=\"x.png\" alt=\"a\" loading=\"lazy\"></figure>") := by
  decide

/-- C8: only the four literal spellings l, L, left, Left (resp. r, R, right,
Right) select the left (resp. right) class; other case variants keep the
center default. -/
theorem C8_align_forms (v : Str) :
    (v = str ("l") ∨ v = str ("L") ∨ v = str ("left") ∨ v = str ("Left") →
      mediaStep [] (str ("![a](x.png?align=") ++ v ++ str (")")) =
        .ok (str ("<figure class=\"align-left\"><img src=\"x.png\" alt=\"a\" loading=\"lazy\"></figure>"))) ∧
    (v = str ("r") ∨ v = str ("R") ∨ v = str ("right") ∨ v = str ("Right") →
      mediaStep [] (str ("![a](x.png?align=") ++ v ++ str (")")) =
        .ok (str ("<figure class=\"align-right\"><img src=\"x.png\" alt=\"a\" loading=\"lazy\"></figure>"))) ∧
    mediaStep [] (str ("![a](x.png?align=lEft)")) =
      .ok (str ("<figure class=\"align-center\"><img src=\"x.png\" alt=\"a\" loading=\"lazy\"></figure>")) := by
  refine ⟨?_, ?_, by decide⟩
  · rintro (rfl | rfl | rfl | rfl) <;> decide
  · rintro (rfl | rfl | rfl | rfl) <;> decide

theorem C8_align_forms_witness :
    (str ("Left") = str ("l") ∨ str ("Left") = str ("L") ∨ str ("Left") = str ("left") ∨
        str ("Left") = str ("Left")) ∧
    mediaStep [] (str ("![a](x.png?align=") ++ str ("Left") ++ str (")")) =
      .ok (str ("<figure class=\"align-left\"><img src=\"x.png\" alt=\"a\" loading=\"lazy\"></figure>")) :=
  ⟨by decide, (C8_align_forms (str ("Left"))).1 (by decide)⟩

theorem splitOnceOn_prefix (sep s : Str) (hs : sep ≠ []) (h : s.take sep.length = sep) :
    splitOnceOn sep s = some ([], s.drop sep.length) := by
  cases s with
  | nil =>
    rw [List.take_nil] at h
    exact absurd h.symm hs
  | cons c rest =>
    have hp : sep.isPrefixOf (c :: rest) = true := by
      rw [List.isPrefixOf_iff_prefix]
      exact ⟨(c :: rest).drop sep.length, by conv_rhs => rw [← List.take_append_drop sep.length (c :: rest)]; rw [h]⟩
    simp [splitOnceOn, hp, hs]

/-- C10: text starting with the front-matter delimiter but containing no
second delimiter makes the three-way unpacking of `split("---", 2)` raise
ValueError. -/
theorem C10_missing_delimiter (Y : Type) (decode : Str → Except PyErr Y) (base text : Str)
    (h1 : (makeTidy text).take 3 = str ("---"))
    (h2 : splitOnceOn (str ("---")) ((makeTidy text).drop 3) = none) :
    convertState Y decode base text = .error .valueError := by
  have hlen : (str ("---")).length = 3 := rfl
  have hsp : splitOnceOn (str ("---")) (makeTidy text) = some ([], (makeTidy text).drop 3) := by
    have h := splitOnceOn_prefix (str ("---")) (makeTidy text) (by decide) (by rw [hlen, h1])
    rwa [hlen] at h
  simp [convertState, metadataSplit, pySplit2, h1, hsp, h2]

theorem C10_missing_delimiter_witness :
    (makeTidy (str ("---abc"))).take 3 = str ("---") ∧
    splitOnceOn (str ("---")) ((makeTidy (str ("---abc"))).drop 3) = none ∧
    convertState Unit okDecode [] (str ("---abc")) = .error .valueError :=
  ⟨by decide, by decide, C10_missing_delimiter Unit okDecode [] (str ("---abc")) (by decide) (by decide)⟩

/-- C6: absence of the leading delimiter gives empty metadata and the whole
(tidied) text as body; a decoder failure on the front-matter segment is
surfaced unchanged. -/
theorem C6_front_matter :
    (∀ (Y : Type) (decode : Str → Except PyErr Y) (base text : Str),
      (makeTidy text).take 3 ≠ str ("---") →
      convertState Y decode base text =
        match parseLines base initState (pySplitChar '\n' (makeTidy text)) with
        | .error e => .error e
        | .ok st => .ok (none, st)) ∧
    (∀ (Y : Type) (decode : Str → Except PyErr Y) (base text a seg body : Str) (e : PyErr),
      (makeTidy text).take 3 = str ("---") →
      pySplit2 (str ("---")) (makeTidy text) = [a, seg, body] →
      decode seg = .error e →
      convertState Y decode base text = .error e) := by
  constructor
  · intro Y decode base text h
    simp [convertState, metadataSplit, h]
  · intro Y decode base text a seg body e h1 h2 h3
    simp [convertState, metadataSplit, h1, h2, h3]

theorem C6_front_matter_witness :
    ((makeTidy (str ("x"))).take 3 ≠ str ("---") ∧
      convertState Unit okDecode [] (str ("x")) =
        match parseLines [] initState (pySplitChar '\n' (makeTidy (str ("x")))) with
        | .error e => .error e
        | .ok st => .ok (none, st)) ∧
    ((makeTidy (str ("---a---b"))).take 3 = str ("---") ∧
      pySplit2 (str ("---")) (makeTidy (str ("---a---b"))) = [[], str ("a"), str ("b\n\n")] ∧
      failDecode (str ("a")) = .error .indexError ∧
      convertState Unit failDecode [] (str ("---a---b")) = .error .indexError) :=
  ⟨⟨by decide, C6_front_matter.1 Unit okDecode [] (str ("x")) (by decide)⟩,
   ⟨by decide, by decide, by decide,
    C6_front_matter.2 Unit failDecode [] (str ("---a---b")) [] (str ("a")) (str ("b\n\n")) .indexError
      (by decide) (by decide) (by decide)⟩⟩

theorem resolveUrl_external (base url : Str) (h : isExternal url = true) :
    resolveUrl base url = url := by
  simp [resolveUrl, h]

theorem resolveUrl_local (base url : Str) (h1 : isExternal url = false) (h2 : base ≠ []) :
    resolveUrl base url = base ++ '/' :: url := by
  simp [resolveUrl, h1, h2]

theorem linkLoop_none (base : Str) (fuel : Nat) (l : Str) (h : scanLink l = none) :
    linkLoop base fuel l = l := by
  cases fuel <;> simp [linkLoop, h]

theorem linkLoop_step (base : Str) (fuel : Nat) (l txt url : Str) (h : scanLink l = some (txt, url)) :
    linkLoop base (fuel + 1) l =
      linkLoop base fuel
        (replaceAll ('[' :: txt ++ ']' :: '(' :: url ++ [')'])
          (str ("<a href=\"") ++ resolveUrl base url ++ str ("\">") ++ txt ++ str ("</a>")) l) := by
  simp [linkLoop, h]

/-- The figure tag produced by the media detector is not in the
no-paragraph tag set (every pattern differs from it within the first two
characters). -/
theorem noParagraph_figure (t : Str) : noParagraph (str ("<figure") ++ t) = false := by
  simp only [noParagraph, List.any_cons, List.any_nil]
  rw [not_prefix_of_take_ne (str ("<h1")) (str ("<figure")) t 2 (by decide) (by decide) (by decide),
    not_prefix_of_take_ne (str ("<h2")) (str ("<figure")) t 2 (by decide) (by decide) (by decide),
    not_prefix_of_take_ne (str ("<h3")) (str ("<figure")) t 2 (by decide) (by decide) (by decide),
    not_prefix_of_take_ne (str ("<h4")) (str ("<figure")) t 2 (by decide) (by decide) (by decide),
    not_prefix_of_take_ne (str ("<h5")) (str ("<figure")) t 2 (by decide) (by decide) (by decide),
    not_prefix_of_take_ne (str ("<h6")) (str ("<figure")) t 2 (by decide) (by decide) (by decide),
    not_prefix_of_take_ne (str ("<pre")) (str ("<figure")) t 2 (by decide) (by decide) (by decide),
    not_prefix_of_take_ne (str ("<ul")) (str ("<figure")) t 2 (by decide) (by decide) (by decide),
    not_prefix_of_take_ne (str ("<ol")) (str ("<figure")) t 2 (by decide) (by decide) (by decide),
    not_prefix_of_take_ne (str ("<li")) (str ("<figure")) t 2 (by decide) (by decide) (by decide),
    not_prefix_of_take_ne (str ("<img")) (str ("<figure")) t 2 (by decide) (by decide) (by decide),
    not_prefix_of_take_ne (str ("<blockquote")) (str ("<figure")) t 2 (by decide) (by decide) (by decide),
    not_prefix_of_take_ne (str ("<div")) (str ("<figure")) t 2 (by decide) (by decide) (by decide)]
  rfl

/-- C2: the paragraph handler never opens a paragraph before a line matching
the no-paragraph tag set, but a media line renders as a figure tag, which is
outside that set. -/
theorem C2_no_paragraph_tags :
    (∀ (st : MDState) (line : Str), noParagraph line = true →
      (paragraphStep st line).1.events.count MDEvent.pOpen = st.events.count MDEvent.pOpen) ∧
    (∀ t : Str, noParagraph (str ("<figure") ++ t) = false) := by
  constructor
  · intro st line h
    have hc1 : ¬(lastLineEmpty st = true ∧ st.lineEmpty = false ∧ noParagraph line = false) := by
      intro hc
      rw [h] at hc
      exact absurd hc.2.2 (by decide)
    simp only [paragraphStep, if_neg hc1]
    split
    · simp [List.count_append]
    · rfl
  · exact noParagraph_figure

theorem C2_no_paragraph_tags_witness :
    (noParagraph (str ("<h1>T</h1>")) = true ∧
      (paragraphStep initState (str ("<h1>T</h1>"))).1.events.count MDEvent.pOpen =
        initState.events.count MDEvent.pOpen) ∧
    noParagraph (str ("<figure") ++ str (" class=x")) = false :=
  ⟨⟨by decide, C2_no_paragraph_tags.1 initState (str ("<h1>T</h1>")) (by decide)⟩,
   C2_no_paragraph_tags.2 (str (" class=x"))⟩

/-- C5: externally-prefixed URLs are never resolved against the base URL,
for link hrefs, media sources and poster URLs alike; non-external URLs get
the base prefix exactly when a base URL is configured. -/
theorem C5_external_url :
    (∀ base url : Str, isExternal url = true → resolveUrl base url = url) ∧
    (∀ base url : Str, isExternal url = false → base ≠ [] →
      resolveUrl base url = base ++ '/' :: url) ∧
    (∀ base : Str, linkStep base (str ("[t](https://e.com/p)")) =
      str ("<a href=\"https://e.com/p\">t</a>")) ∧
    (∀ base : Str, mediaStep base (str ("![a](http://e.com/x.png)")) =
      .ok (str ("<figure class=\"align-center\"><img src=\"http://e.com/x.png\" alt=\"a\" loading=\"lazy\"></figure>"))) ∧
    (∀ base : Str, mediaStep base (str ("![a](http://e/v.mp4?preload-poster=https://e.com/p.jpg)")) =
      .ok (str ("<figure class=\"align-center\"><video preload=\"none\" poster=\"https://e.com/p.jpg\"><source src=\"http://e/v.mp4\" alt=\"a\" type=\"video/mp4\"></video></figure>"))) := by
  refine ⟨resolveUrl_external, resolveUrl_local, ?_, ?_, ?_⟩
  · intro base
    have h0 : (str ("[t](https://e.com/p)")).count ')' + 1 = 1 + 1 := by decide
    have h1 : scanLink (str ("[t](https://e.com/p)")) =
        some (str ("t"), str ("https://e.com/p")) := by decide
    have hres : resolveUrl base (str ("https://e.com/p")) = str ("https://e.com/p") :=
      resolveUrl_external base _ (by decide)
    unfold linkStep
    rw [h0, linkLoop_step base 1 _ _ _ h1, hres, linkLoop_none base 1 _ (by decide)]
    decide
  · intro base
    have hm : mediaMatch (str ("![a](http://e.com/x.png)")) =
        some (str ("a"), str ("http://e.com/x.png"), []) := by decide
    have hres : resolveUrl base (str ("http://e.com/x.png")) = str ("http://e.com/x.png") :=
      resolveUrl_external base _ (by decide)
    simp only [mediaStep, hm]
    rw [hres]
    rfl
  · intro base
    have hm : mediaMatch (str ("![a](http://e/v.mp4?preload-poster=https://e.com/p.jpg)")) =
        some (str ("a"), str ("http://e/v.mp4"), str ("preload-poster=https://e.com/p.jpg")) := by
      decide
    have hres : resolveUrl base (str ("http://e/v.mp4")) = str ("http://e/v.mp4") :=
      resolveUrl_external base _ (by decide)
    have hsplit2 : pySplitChar '=' (str ("preload-poster=https://e.com/p.jpg")) =
        [str ("preload-poster"), str ("https://e.com/p.jpg")] := by decide
    have hattr : processAttr base ([], str ("align-center"))
        (str ("preload-poster=https://e.com/p.jpg")) =
        .ok ([str ("preload=\"none\""), str ("poster=\"https://e.com/p.jpg\"")],
          str ("align-center")) := by
      simp only [processAttr, hsplit2, List.headD]
      rw [if_neg (by decide), if_neg (by decide), if_neg (by decide), if_pos (by decide),
        if_pos (by decide)]
      rw [resolveUrl_external base _ (by decide)]
      rfl
    have hfold : List.foldlM (processAttr base) ([], str ("align-center"))
        (pySplitChar '&' (str ("preload-poster=https://e.com/p.jpg"))) =
        .ok ([str ("preload=\"none\""), str ("poster=\"https://e.com/p.jpg\"")],
          str ("align-center")) := by
      rw [show pySplitChar '&' (str ("preload-poster=https://e.com/p.jpg")) =
        [str ("preload-poster=https://e.com/p.jpg")] from by decide]
      simp only [List.foldlM_cons, List.foldlM_nil, hattr]
      rfl
    simp only [mediaStep, hm, hfold]
    rw [hres]
    rfl

theorem C5_external_url_witness :
    (isExternal (str ("https://x/y")) = true ∧
      resolveUrl (str ("b")) (str ("https://x/y")) = str ("https://x/y")) ∧
    (isExternal (str ("img.png")) = false ∧ str ("b") ≠ [] ∧
      resolveUrl (str ("b")) (str ("img.png")) = str ("b") ++ '/' :: str ("img.png")) ∧
    linkStep (str ("b")) (str ("[t](https://e.com/p)")) = str ("<a href=\"https://e.com/p\">t</a>") :=
  ⟨⟨by decide, C5_external_url.1 (str ("b")) (str ("https://x/y")) (by decide)⟩,
   ⟨by decide, by decide, C5_external_url.2.1 (str ("b")) (str ("img.png")) (by decide) (by decide)⟩,
   C5_external_url.2.2.1 (str ("b"))⟩

/-! ## Helper lemmas for symbolic evaluation of the inline pipeline -/

theorem replaceAllFuel_nil (old new : Str) (f : Nat) : replaceAllFuel old new f [] = [] := by
  cases f <;> rfl

theorem replaceAll_self (old new : Str) (h : old ≠ []) : replaceAll old new old = new := by
  cases old with
  | nil => exact absurd rfl h
  | cons c rest =>
    show replaceAllFuel (c :: rest) new (c :: rest).length (c :: rest) = new
    rw [List.length_cons]
    simp only [replaceAllFuel]
    rw [if_pos ⟨List.isPrefixOf_iff_prefix.mpr (List.prefix_refl _), by simp⟩]
    rw [List.drop_length, replaceAllFuel_nil, List.append_nil]

theorem replaceAllFuel_no_head (hc : Char) (tl new : Str) (f : Nat) (s : Str)
    (h : ∀ c ∈ s, (c = hc) = False) : replaceAllFuel (hc :: tl) new f s = s := by
  induction f generalizing s with
  | zero => rfl
  | succ n ih =>
    cases s with
    | nil => rfl
    | cons c rest =>
      have hneg : ¬((hc :: tl).isPrefixOf (c :: rest) = true ∧ hc :: tl ≠ []) := by
        intro hp
        obtain ⟨u, hu⟩ := List.isPrefixOf_iff_prefix.mp hp.1
        rw [List.cons_append] at hu
        have hhc : hc = c := by injection hu
        exact (h c (List.mem_cons_self c rest)) ▸ hhc.symm
      simp only [replaceAllFuel]
      rw [if_neg hneg, ih rest (fun x hx => h x (List.mem_cons_of_mem c hx))]

theorem makeTidy_clean (l : Str)
    (hr : ∀ c ∈ l, (c = '\r') = False) (ht : ∀ c ∈ l, (c = '\t') = False) :
    makeTidy l = l ++ str ("\n\n") := by
  have h1 : replaceAll (str ("\r\n")) (str ("\n")) l = l := by
    unfold replaceAll
    rw [show str ("\r\n") = '\r' :: str ("\n") from rfl]
    exact replaceAllFuel_no_head _ _ _ _ _ hr
  have h2 : replaceAll (str ("\r")) (str ("\n")) l = l := by
    unfold replaceAll
    rw [show (str ("\r") : Str) = '\r' :: [] from rfl]
    exact replaceAllFuel_no_head _ _ _ _ _ hr
  have h3 : replaceAll (str ("\t")) (str ("    ")) l = l := by
    unfold replaceAll
    rw [show (str ("\t") : Str) = '\t' :: [] from rfl]
    exact replaceAllFuel_no_head _ _ _ _ _ ht
  simp only [makeTidy, h1, h2, h3]

theorem pySplitChar_clean (l : Str) (h : ∀ c ∈ l, (c = '\n') = False) :
    pySplitChar '\n' (l ++ str ("\n\n")) = [l, [], []] := by
  induction l with
  | nil => decide
  | cons c rest ih =>
    rw [List.cons_append]
    simp only [pySplitChar]
    rw [if_neg (by intro hp; exact (h c (List.mem_cons_self c rest)) ▸ hp),
      ih (fun x hx => h x (List.mem_cons_of_mem c hx))]

theorem scanCode2_clean (s : Str) (h : ∀ c ∈ s, (c = btick) = False) :
    scanCode2 (s ++ [btick]) = none := by
  induction s with
  | nil => decide
  | cons c rest ih =>
    rw [List.cons_append]
    simp only [scanCode2]
    rw [if_neg (by intro hp; exact (h c (List.mem_cons_self c rest)) ▸ hp.1),
      ih (fun x hx => h x (List.mem_cons_of_mem c hx))]

theorem scanCode2_span (s : Str) (hne : s ≠ []) (h : ∀ c ∈ s, (c = btick) = False) :
    scanCode2 (btick :: (s ++ [btick])) = none := by
  obtain ⟨a, s2, rfl⟩ : ∃ a s2, s = a :: s2 := by
    cases s with
    | nil => exact absurd rfl hne
    | cons a s2 => exact ⟨a, s2, rfl⟩
  show scanCode2 (btick :: ((a :: s2) ++ [btick])) = none
  simp only [scanCode2]
  rw [if_neg]
  · exact scanCode2_clean (a :: s2) h
  · intro hp
    have h2 := hp.2
    rw [List.cons_append] at h2
    simp only [List.take_succ_cons, List.take_zero, List.cons.injEq, and_true] at h2
    exact (h a (List.mem_cons_self a s2)) ▸ h2

theorem grab1_span (s : Str) (hne : s ≠ []) (h : ∀ c ∈ s, (c = btick) = False) :
    grab1 (s ++ [btick]) = some s := by
  induction s with
  | nil => exact absurd rfl hne
  | cons a s2 ih =>
    rw [List.cons_append]
    simp only [grab1]
    cases s2 with
    | nil => rw [if_pos (by decide)]
    | cons b s3 =>
      rw [if_neg]
      · rw [ih (by simp) (fun x hx => h x (List.mem_cons_of_mem a hx))]
        rfl
      · intro hp
        rw [List.cons_append] at hp
        simp only [List.take_succ_cons, List.take_zero, List.cons.injEq, and_true] at hp
        exact (h b (by simp)) ▸ hp

theorem scanCode1_span (s : Str) (hne : s ≠ []) (h : ∀ c ∈ s, (c = btick) = False) :
    scanCode1 (btick :: (s ++ [btick])) = some s := by
  show scanCode1 (btick :: (s ++ [btick])) = some s
  simp only [scanCode1, if_true]
  rw [grab1_span s hne h]

theorem count_span (s : Str) (h : ∀ c ∈ s, (c = btick) = False) :
    (btick :: (s ++ [btick])).count btick = 2 := by
  have h0 : s.count btick = 0 := by
    rw [List.count_eq_zero]
    intro hmem
    exact (h btick hmem) ▸ rfl
  show (btick :: (s ++ [btick])).count btick = 2
  simp [List.count_cons, List.count_append, h0]

theorem extractLoop_none (ticks : Nat) (scan : Str → Option Str) (f : Nat)
    (ex : List (Str × Str)) (l : Str) (h : scan l = none) :
    extractLoop ticks scan f ex l = (ex, l) := by
  cases f <;> simp [extractLoop, h]

theorem extractLoop_step (ticks : Nat) (scan : Str → Option Str) (f : Nat)
    (ex : List (Str × Str)) (l content : Str) (h : scan l = some content) :
    extractLoop ticks scan (f + 1) ex l =
      extractLoop ticks scan f
        (ex ++ [(str ("###<EXTRACTED-") ++ natToChars ex.length ++ str (">###"),
                 str ("<code>") ++ escapeHtml content ++ str ("</code>"))])
        (replaceAll (List.replicate ticks btick ++ content ++ List.replicate ticks btick)
          (str ("###<EXTRACTED-") ++ natToChars ex.length ++ str (">###")) l) := by
  simp [extractLoop, h]

theorem emphLoop_none (scan : Str → Option Str) (mk0 mkNew : Str → Str) (f : Nat) (l : Str)
    (h : scan l = none) : emphLoop scan mk0 mkNew f l = l := by
  cases f <;> simp [emphLoop, h]

theorem runMatch_none_head (mark c : Char) (t : Str) (h : (c = mark) = False) :
    runMatch mark (c :: t) = none := by
  simp [runMatch, List.takeWhile_cons, h]

theorem mediaMatch_none_head (c1 : Char) (t : Str) (h : (c1 = '!') = False) :
    mediaMatch (c1 :: t) = none := by
  cases t with
  | nil => rfl
  | cons c2 rest =>
    simp only [mediaMatch]
    rw [if_neg (by intro hp; exact h ▸ hp.1)]

theorem ne_of_take_ne (a b : Str) (n : Nat) (h : a.take n ≠ b.take n) : a ≠ b :=
  fun hc => h (by rw [hc])

theorem isMoreStep_keep (l : Str) (h1 : l.map Char.toLower ≠ str ("==="))
    (h2 : l.map Char.toLower ≠ str ("<!-- more --!>")) : isMoreStep l = l := by
  simp [isMoreStep, h1, h2]

theorem listUl_none_head (mark c : Char) (t : Str) (h1 : isPySpace c = false)
    (h2 : (c = mark) = False) : listUl mark (c :: t) = none := by
  unfold listUl
  have htw : (c :: t).takeWhile isPySpace = [] := by simp [List.takeWhile_cons, h1]
  simp only [htw, List.length_nil, List.drop_zero]
  cases t with
  | nil => rfl
  | cons d t2 => exact if_neg (by intro hp; exact h2 ▸ hp.1)

theorem listOl_none_head (c : Char) (t : Str) (h1 : isPySpace c = false)
    (h2 : c.isDigit = false) : listOl (c :: t) = none := by
  unfold listOl
  have htw : (c :: t).takeWhile isPySpace = [] := by simp [List.takeWhile_cons, h1]
  have htd : (c :: t).takeWhile Char.isDigit = [] := by simp [List.takeWhile_cons, h2]
  simp [htw, htd]

/-- The inline-code tag is not in the no-paragraph tag set either. -/
theorem noParagraph_code (t : Str) : noParagraph (str ("<code>") ++ t) = false := by
  simp only [noParagraph, List.any_cons, List.any_nil]
  rw [not_prefix_of_take_ne (str ("<h1")) (str ("<code>")) t 2 (by decide) (by decide) (by decide),
    not_prefix_of_take_ne (str ("<h2")) (str ("<code>")) t 2 (by decide) (by decide) (by decide),
    not_prefix_of_take_ne (str ("<h3")) (str ("<code>")) t 2 (by decide) (by decide) (by decide),
    not_prefix_of_take_ne (str ("<h4")) (str ("<code>")) t 2 (by decide) (by decide) (by decide),
    not_prefix_of_take_ne (str ("<h5")) (str ("<code>")) t 2 (by decide) (by decide) (by decide),
    not_prefix_of_take_ne (str ("<h6")) (str ("<code>")) t 2 (by decide) (by decide) (by decide),
    not_prefix_of_take_ne (str ("<pre")) (str ("<code>")) t 2 (by decide) (by decide) (by decide),
    not_prefix_of_take_ne (str ("<ul")) (str ("<code>")) t 2 (by decide) (by decide) (by decide),
    not_prefix_of_take_ne (str ("<ol")) (str ("<code>")) t 2 (by decide) (by decide) (by decide),
    not_prefix_of_take_ne (str ("<li")) (str ("<code>")) t 2 (by decide) (by decide) (by decide),
    not_prefix_of_take_ne (str ("<img")) (str ("<code>")) t 2 (by decide) (by decide) (by decide),
    not_prefix_of_take_ne (str ("<blockquote")) (str ("<code>")) t 2 (by decide) (by decide) (by decide),
    not_prefix_of_take_ne (str ("<div")) (str ("<code>")) t 2 (by decide) (by decide) (by decide)]
  rfl

theorem extractCode_span (s : Str) (hne : s ≠ []) (h : ∀ c ∈ s, (c = btick) = False) :
    extractCode [] (btick :: (s ++ [btick])) =
      ([(str ("###<EXTRACTED-0>###"), str ("<code>") ++ escapeHtml s ++ str ("</code>"))],
       str ("###<EXTRACTED-0>###")) := by
  unfold extractCode
  rw [extractLoop_none 2 scanCode2 _ [] _ (scanCode2_span s hne h)]
  show extractLoop 1 scanCode1 ((btick :: (s ++ [btick])).count btick + 1) []
    (btick :: (s ++ [btick])) = _
  rw [count_span s h, extractLoop_step 1 scanCode1 2 [] _ s (scanCode1_span s hne h)]
  simp only [List.length_nil, List.nil_append]
  rw [show (str ("###<EXTRACTED-") ++ natToChars 0 ++ str (">###") : Str) =
      str ("###<EXTRACTED-0>###") from by decide]
  have hrepl : replaceAll (List.replicate 1 btick ++ s ++ List.replicate 1 btick)
      (str ("###<EXTRACTED-0>###")) (btick :: (s ++ [btick])) = str ("###<EXTRACTED-0>###") := by
    rw [show List.replicate 1 btick = [btick] from rfl,
      show ([btick] ++ s ++ [btick] : Str) = btick :: (s ++ [btick]) from by simp]
    exact replaceAll_self _ _ (by simp)
  rw [hrepl, extractLoop_none 1 scanCode1 _ _ _ (by decide)]

theorem inlinePhase_span (s : Str) (hne : s ≠ []) (hb : ∀ c ∈ s, (c = btick) = False) :
    inlinePhase [] [] (btick :: (s ++ [btick])) =
      .ok (str ("<code>") ++ escapeHtml s ++ str ("</code>")) := by
  have hhead : headingStep (btick :: (s ++ [btick])) = btick :: (s ++ [btick]) := by
    unfold headingStep
    rw [runMatch_none_head '#' btick _ (by decide)]
  have hnot : noticesStep (btick :: (s ++ [btick])) = btick :: (s ++ [btick]) := by
    unfold noticesStep
    rw [runMatch_none_head '!' btick _ (by decide)]
  have hmed : mediaStep [] (btick :: (s ++ [btick])) = .ok (btick :: (s ++ [btick])) := by
    unfold mediaStep
    rw [mediaMatch_none_head btick _ (by decide)]
  have hmap1 : (List.map Char.toLower (btick :: (s ++ [btick]))).take 1 = [btick] := by
    rw [List.map_cons, show Char.toLower btick = btick from by decide]
    rfl
  have hmore : isMoreStep (btick :: (s ++ [btick])) = btick :: (s ++ [btick]) := by
    apply isMoreStep_keep
    · apply ne_of_take_ne _ _ 1
      rw [hmap1]
      decide
    · apply ne_of_take_ne _ _ 1
      rw [hmap1]
      decide
  simp only [inlinePhase, hhead, hnot, hmed, hmore]
  rw [extractCode_span s hne hb]
  rw [show boldStep (str ("###<EXTRACTED-0>###")) = str ("###<EXTRACTED-0>###") from by decide,
    show italicStep (str ("###<EXTRACTED-0>###")) = str ("###<EXTRACTED-0>###") from by decide,
    show deletedStep (str ("###<EXTRACTED-0>###")) = str ("###<EXTRACTED-0>###") from by decide,
    show linkStep [] (str ("###<EXTRACTED-0>###")) = str ("###<EXTRACTED-0>###") from by decide]
  simp only [insertCode, List.foldl_cons, List.foldl_nil]
  rw [replaceAll_self _ _ (by decide)]

theorem insertCode_nil (ex : List (Str × Str)) : insertCode ex [] = [] := by
  induction ex with
  | nil => rfl
  | cons p ex ih =>
    simp only [insertCode, List.foldl_cons]
    rw [show replaceAll p.1 p.2 [] = [] from rfl]
    exact ih

theorem inlinePhase_nil_line (base : Str) (ex : List (Str × Str)) :
    inlinePhase base ex [] = .ok [] := by
  have h : inlinePhase base ex [] = .ok (insertCode ex []) := rfl
  rw [h, insertCode_nil]

/-- A nonempty, non-fence-delimiter line with the fence closed runs the
inline phase and then the three block handlers. -/
theorem processLine_nonempty_noFence (base : Str) (st : MDState) (raw v : Str)
    (hraw : raw.isEmpty = false)
    (hfence3 : raw.take 3 ≠ str ("```"))
    (hf : st.inFence = false)
    (hin : inlinePhase base st.extracted raw = .ok v) :
    processLine base st raw =
      (let b := blockquoteStep { st with lineEmpty := false, extracted := [] } v
       let li := listStep b.1 b.2
       let p := paragraphStep li.1 li.2
       .ok { p.1 with lines := p.1.lines ++ [p.2] }) := by
  have hfs : fenceStep { st with lineEmpty := false } raw =
      ({ st with lineEmpty := false }, raw) := by
    simp [fenceStep, hfence3, hf]
  simp only [processLine, hraw, hfs]
  simp [hf, hin]

/-- A blank line with the fence closed runs the three block handlers on the
empty line value. -/
theorem processLine_blank (base : Str) (st : MDState) (hf : st.inFence = false) :
    processLine base st [] =
      (let b := blockquoteStep { st with lineEmpty := true, extracted := [] } []
       let li := listStep b.1 b.2
       let p := paragraphStep li.1 li.2
       .ok { p.1 with lines := p.1.lines ++ [p.2] }) := by
  have hfs : fenceStep { st with lineEmpty := true } [] = ({ st with lineEmpty := true }, []) := by
    simp [fenceStep]
  simp only [processLine, List.isEmpty_nil, hfs]
  simp [hf, inlinePhase_nil_line]

/-- The three block handlers on a nonempty line that carries no blockquote
prefix and no list marker, arriving after an empty output line: they only
open a paragraph. -/
theorem blockPhase_tagLine (st : MDState) (v : Str)
    (hle : st.lineEmpty = false)
    (hbq2 : v.take 2 ≠ str ("> "))
    (hul1 : listUl '-' v = none) (hul2 : listUl '*' v = none) (hol : listOl v = none)
    (hlast : lastLineEmpty st = true) (hnp : noParagraph v = false) :
    (let b := blockquoteStep st v
     let li := listStep b.1 b.2
     let p := paragraphStep li.1 li.2
     (Except.ok { p.1 with lines := p.1.lines ++ [p.2] } : Except PyErr MDState)) =
      Except.ok { st with
                  lines := st.lines ++ [str ("<p>"), v],
                  events := st.events ++ [MDEvent.pOpen],
                  inParagraph := true } := by
  have hbq : blockquoteStep st v = (st, v) := by
    simp [blockquoteStep, hbq2, hle]
  have hli : listStep st v = (st, v) := by
    simp [listStep, listIter, hul1, hul2, hol, hle]
  have hpa : paragraphStep st v =
      ({ st with
         lines := st.lines ++ [str ("<p>")],
         events := st.events ++ [MDEvent.pOpen],
         inParagraph := true }, v) := by
    simp [paragraphStep, hlast, hle, hnp]
  simp only [hbq, hli, hpa]
  simp [List.append_assoc]

/-- Processing a blank line in a plain open paragraph (no blockquote, no
lists): the paragraph is closed and the blank line appended. -/
theorem blockPhase_blankClose (st : MDState)
    (hbq : st.inBlockquote = false) (hlt : st.listType = [])
    (hp : st.inParagraph = true) (hlast : lastLineEmpty st = false) :
    (let b := blockquoteStep { st with lineEmpty := true, extracted := [] } []
     let li := listStep b.1 b.2
     let p := paragraphStep li.1 li.2
     (Except.ok { p.1 with lines := p.1.lines ++ [p.2] } : Except PyErr MDState)) =
      Except.ok { st with
                  lines := st.lines ++ [str ("</p>"), []],
                  events := st.events ++ [MDEvent.pClose],
                  extracted := [],
                  lineEmpty := true,
                  inParagraph := false } := by
  have hbqs : blockquoteStep { st with lineEmpty := true, extracted := [] } [] =
      ({ st with lineEmpty := true, extracted := [] }, []) := by
    simp [blockquoteStep, hbq]
  have h1 : listUl '-' ([] : Str) = none := rfl
  have h2 : listUl '*' ([] : Str) = none := rfl
  have h3 : listOl ([] : Str) = none := rfl
  have hlis : listStep { st with lineEmpty := true, extracted := [] } [] =
      ({ st with lineEmpty := true, extracted := [] }, []) := by
    simp [listStep, listIter, closeListsTo, hlt, h1, h2, h3]
  have hlast2 : lastLineEmpty { st with lineEmpty := true, extracted := [] } =
      lastLineEmpty st := rfl
  have hpas : paragraphStep { st with lineEmpty := true, extracted := [] } [] =
      ({ st with
         lines := st.lines ++ [str ("</p>")],
         events := st.events ++ [MDEvent.pClose],
         extracted := [],
         lineEmpty := true,
         inParagraph := false }, []) := by
    have hc1 : ¬(lastLineEmpty { st with lineEmpty := true, extracted := [] } = true ∧
        MDState.lineEmpty { st with lineEmpty := true, extracted := [] } = false ∧
        noParagraph [] = false) := by
      intro h
      exact absurd h.2.1 (by simp)
    simp only [paragraphStep, if_neg hc1]
    rw [if_pos ⟨trivial, hlast2.trans hlast, hp⟩]
  simp only [hbqs, hlis, hpas]
  simp [List.append_assoc]

/-- Processing a blank line when nothing is open: the blank line is appended
and the state is otherwise unchanged. -/
theorem blockPhase_blankIdle (st : MDState)
    (hbq : st.inBlockquote = false) (hlt : st.listType = [])
    (hp : st.inParagraph = false) :
    (let b := blockquoteStep { st with lineEmpty := true, extracted := [] } []
     let li := listStep b.1 b.2
     let p := paragraphStep li.1 li.2
     (Except.ok { p.1 with lines := p.1.lines ++ [p.2] } : Except PyErr MDState)) =
      Except.ok { st with
                  lines := st.lines ++ [[]],
                  extracted := [],
                  lineEmpty := true } := by
  have hbqs : blockquoteStep { st with lineEmpty := true, extracted := [] } [] =
      ({ st with lineEmpty := true, extracted := [] }, []) := by
    simp [blockquoteStep, hbq]
  have h1 : listUl '-' ([] : Str) = none := rfl
  have h2 : listUl '*' ([] : Str) = none := rfl
  have h3 : listOl ([] : Str) = none := rfl
  have hlis : listStep { st with lineEmpty := true, extracted := [] } [] =
      ({ st with lineEmpty := true, extracted := [] }, []) := by
    simp [listStep, listIter, closeListsTo, hlt, h1, h2, h3]
  have hpas : paragraphStep { st with lineEmpty := true, extracted := [] } [] =
      ({ st with lineEmpty := true, extracted := [] }, []) := by
    simp [paragraphStep, hp]
  simp only [hbqs, hlis, hpas]

theorem processLine_span (s : Str) (hne : s ≠ []) (hb : ∀ c ∈ s, (c = btick) = False) :
    processLine [] initState (btick :: (s ++ [btick])) =
      .ok { lines := [str ("<p>"), str ("<code>") ++ escapeHtml s ++ str ("</code>")],
            events := [.pOpen], extracted := [], lineEmpty := false, inFence := false,
            inParagraph := true, inBlockquote := false, listType := [] } := by
  obtain ⟨a, s2, rfl⟩ : ∃ a s2, s = a :: s2 := by
    cases s with
    | nil => exact absurd rfl hne
    | cons a s2 => exact ⟨a, s2, rfl⟩
  have ha : (a = btick) = False := hb a (List.mem_cons_self a s2)
  have hfence : ((btick :: ((a :: s2) ++ [btick])) : Str).take 3 ≠ str ("```") := by
    intro hcon
    rw [show ((btick :: ((a :: s2) ++ [btick])).take 3 : Str) =
        btick :: a :: (s2 ++ [btick]).take 1 from rfl,
      show ((str ("```")) : Str) = btick :: btick :: btick :: [] from by decide] at hcon
    injection hcon with hc1 hrest
    injection hrest with hc2 _
    exact ha ▸ hc2
  rw [processLine_nonempty_noFence [] initState (btick :: ((a :: s2) ++ [btick]))
    (str ("<code>") ++ escapeHtml (a :: s2) ++ str ("</code>")) rfl hfence rfl
    (inlinePhase_span (a :: s2) (by simp) hb)]
  rw [blockPhase_tagLine { initState with lineEmpty := false, extracted := [] }
    (str ("<code>") ++ escapeHtml (a :: s2) ++ str ("</code>")) rfl
    (by rw [show (((str ("<code>") ++ escapeHtml (a :: s2) ++ str ("</code>")) : Str).take 2) =
        ['<', 'c'] from rfl]; decide)
    rfl rfl rfl rfl rfl]
  rfl

set_option maxHeartbeats 2000000 in
/-- C4: a single-backtick code span is extracted before the emphasis
transforms run, so its contents (including emphasis delimiters) reach the
output literally inside a code tag, wrapped in a paragraph. -/
theorem C4_code_span_protection (s : Str) (hne : s ≠ [])
    (hs : ∀ c ∈ s, c ≠ btick ∧ c ≠ '\r' ∧ c ≠ '\t' ∧ c ≠ '\n') :
    convertState Unit okDecode [] (btick :: (s ++ [btick])) =
      .ok (none,
        { lines := [str ("<p>"), str ("<code>") ++ escapeHtml s ++ str ("</code>"),
                    str ("</p>"), [], []],
          events := [.pOpen, .pClose], extracted := [], lineEmpty := true, inFence := false,
          inParagraph := false, inBlockquote := false, listType := [] }) := by
  have hb : ∀ c ∈ s, (c = btick) = False := fun c hc => eq_false (hs c hc).1
  have hline_r : ∀ c ∈ (btick :: (s ++ [btick]) : Str), (c = '\r') = False := by
    intro c hc
    rcases List.mem_cons.mp hc with rfl | hc2
    · exact eq_false (by decide)
    · rcases List.mem_append.mp hc2 with hc3 | hc4
      · exact eq_false (hs c hc3).2.1
      · rw [List.mem_singleton] at hc4
        subst hc4
        exact eq_false (by decide)
  have hline_t : ∀ c ∈ (btick :: (s ++ [btick]) : Str), (c = '\t') = False := by
    intro c hc
    rcases List.mem_cons.mp hc with rfl | hc2
    · exact eq_false (by decide)
    · rcases List.mem_append.mp hc2 with hc3 | hc4
      · exact eq_false (hs c hc3).2.2.1
      · rw [List.mem_singleton] at hc4
        subst hc4
        exact eq_false (by decide)
  have hline_n : ∀ c ∈ (btick :: (s ++ [btick]) : Str), (c = '\n') = False := by
    intro c hc
    rcases List.mem_cons.mp hc with rfl | hc2
    · exact eq_false (by decide)
    · rcases List.mem_append.mp hc2 with hc3 | hc4
      · exact eq_false (hs c hc3).2.2.2
      · rw [List.mem_singleton] at hc4
        subst hc4
        exact eq_false (by decide)
  have hp1 := processLine_span s hne hb
  have hp2 : processLine []
      { lines := [str ("<p>"), str ("<code>") ++ escapeHtml s ++ str ("</code>")],
        events := [MDEvent.pOpen], extracted := [], lineEmpty := false, inFence := false,
        inParagraph := true, inBlockquote := false, listType := [] } [] =
      .ok { lines := [str ("<p>"), str ("<code>") ++ escapeHtml s ++ str ("</code>"),
                      str ("</p>"), []],
            events := [MDEvent.pOpen, MDEvent.pClose], extracted := [], lineEmpty := true,
            inFence := false, inParagraph := false, inBlockquote := false, listType := [] } := by
    rw [processLine_blank []
      { lines := [str ("<p>"), str ("<code>") ++ escapeHtml s ++ str ("</code>")],
        events := [MDEvent.pOpen], extracted := [], lineEmpty := false,
        inFence := false, inParagraph := true, inBlockquote := false,
        listType := [] } rfl]
    rw [blockPhase_blankClose
      { lines := [str ("<p>"), str ("<code>") ++ escapeHtml s ++ str ("</code>")],
        events := [MDEvent.pOpen], extracted := [], lineEmpty := false,
        inFence := false, inParagraph := true, inBlockquote := false,
        listType := [] } rfl rfl rfl rfl]
    rfl
  have hp3 : processLine []
      { lines := [str ("<p>"), str ("<code>") ++ escapeHtml s ++ str ("</code>"),
                  str ("</p>"), []],
        events := [MDEvent.pOpen, MDEvent.pClose], extracted := [], lineEmpty := true,
        inFence := false, inParagraph := false, inBlockquote := false, listType := [] } [] =
      .ok { lines := [str ("<p>"), str ("<code>") ++ escapeHtml s ++ str ("</code>"),
                      str ("</p>"), [], []],
            events := [MDEvent.pOpen, MDEvent.pClose], extracted := [], lineEmpty := true,
            inFence := false, inParagraph := false, inBlockquote := false, listType := [] } := by
    rw [processLine_blank []
      { lines := [str ("<p>"), str ("<code>") ++ escapeHtml s ++ str ("</code>"),
                  str ("</p>"), []],
        events := [MDEvent.pOpen, MDEvent.pClose], extracted := [], lineEmpty := true,
        inFence := false, inParagraph := false, inBlockquote := false,
        listType := [] } rfl]
    rw [blockPhase_blankIdle
      { lines := [str ("<p>"), str ("<code>") ++ escapeHtml s ++ str ("</code>"),
                  str ("</p>"), []],
        events := [MDEvent.pOpen, MDEvent.pClose], extracted := [], lineEmpty := true,
        inFence := false, inParagraph := false, inBlockquote := false,
        listType := [] } rfl rfl rfl]
    rfl
  have hmeta : (((btick :: (s ++ [btick])) ++ str ("\n\n") : Str)).take 3 ≠ str ("---") := by
    intro hcon
    rw [show (((btick :: (s ++ [btick])) ++ str ("\n\n")).take 3 : Str) =
        btick :: ((s ++ [btick]) ++ str ("\n\n")).take 2 from rfl,
      show ((str ("---")) : Str) = '-' :: '-' :: '-' :: [] from by decide] at hcon
    injection hcon with hc1 _
    exact absurd hc1 (by decide)
  simp only [convertState]
  rw [makeTidy_clean _ hline_r hline_t]
  simp only [metadataSplit]
  have hsplit : pySplitChar '\n' ((btick :: (s ++ [btick])) ++ str ("\n\n")) =
      [btick :: (s ++ [btick]), [], []] := pySplitChar_clean _ hline_n
  rw [if_neg hmeta]
  simp only [hsplit, parseLines, hp1, hp2, hp3]

theorem lastLineEmpty_lines (st st2 : MDState) (h : st2.lines = st.lines) :
    lastLineEmpty st2 = lastLineEmpty st := by
  simp [lastLineEmpty, h]

theorem lastLineEmpty_concat (st2 st : MDState) (l : Str) (h : st2.lines = st.lines ++ [l]) :
    lastLineEmpty st2 = l.isEmpty := by
  simp [lastLineEmpty, h, List.getLast?_concat]

theorem lastLineEmpty_mk (ls : List Str) (l : Str) (ev : List MDEvent)
    (ex : List (Str × Str)) (b1 b2 b3 b4 : Bool) (lt : List Str) :
    lastLineEmpty { lines := ls ++ [l], events := ev, extracted := ex, lineEmpty := b1,
                    inFence := b2, inParagraph := b3, inBlockquote := b4, listType := lt } =
      l.isEmpty := by
  simp [lastLineEmpty, List.getLast?_concat]

theorem lastLineEmpty_mk0 (st : MDState) (ev : List MDEvent)
    (ex : List (Str × Str)) (b1 b2 b3 b4 : Bool) (lt : List Str) :
    lastLineEmpty { lines := st.lines, events := ev, extracted := ex, lineEmpty := b1,
                    inFence := b2, inParagraph := b3, inBlockquote := b4, listType := lt } =
      lastLineEmpty st := rfl

theorem lastLineEmpty_append_ne (st2 st : MDState) (ls : List Str)
    (h : st2.lines = st.lines ++ ls)
    (hne : lastLineEmpty st = false)
    (hall : ∀ l ∈ ls, l.isEmpty = false) :
    lastLineEmpty st2 = false := by
  rcases List.eq_nil_or_concat ls with rfl | ⟨init, a, rfl⟩
  · rw [List.append_nil] at h
    rw [lastLineEmpty_lines st st2 h]
    exact hne
  · simp only [List.concat_eq_append] at h hall
    rw [show st.lines ++ (init ++ [a]) = (st.lines ++ init) ++ [a] by simp] at h
    rw [lastLineEmpty_concat st2 { st with lines := st.lines ++ init } a h]
    exact hall a (by simp)

theorem bqStep_fields (st : MDState) (v : Str) :
    (blockquoteStep st v).1.listType = st.listType ∧
    (blockquoteStep st v).1.inParagraph = st.inParagraph ∧
    (blockquoteStep st v).1.inFence = st.inFence ∧
    (blockquoteStep st v).1.extracted = st.extracted ∧
    (blockquoteStep st v).1.lineEmpty = st.lineEmpty := by
  simp only [blockquoteStep]
  split_ifs <;> simp

theorem bqStep_events (st : MDState) (v : Str) (hg : preGood st) :
    preGood (blockquoteStep st v).1 := by
  obtain ⟨h1, h2, h3, h4⟩ := hg
  simp only [blockquoteStep, preGood]
  split_ifs <;>
    simp_all [List.count_append, List.count_cons, List.count_nil, lastLineEmpty_mk,
      lastLineEmpty_mk0] <;>
    first
  | omega
  | decide

theorem closeListsTo_inBlockquote (target : Nat) (st : MDState) :
    (closeListsTo target st).inBlockquote = st.inBlockquote := by
  simp only [closeListsTo]
  split_ifs <;> rfl

theorem closeListsTo_inParagraph (target : Nat) (st : MDState) :
    (closeListsTo target st).inParagraph = st.inParagraph := by
  simp only [closeListsTo]
  split_ifs <;> rfl

theorem closeListsTo_inFence (target : Nat) (st : MDState) :
    (closeListsTo target st).inFence = st.inFence := by
  simp only [closeListsTo]
  split_ifs <;> rfl

theorem closeListsTo_extracted (target : Nat) (st : MDState) :
    (closeListsTo target st).extracted = st.extracted := by
  simp only [closeListsTo]
  split_ifs <;> rfl

theorem closeListsTo_lineEmpty (target : Nat) (st : MDState) :
    (closeListsTo target st).lineEmpty = st.lineEmpty := by
  simp only [closeListsTo]
  split_ifs <;> rfl

theorem closeListsTo_zero (st : MDState) : (closeListsTo 0 st).listType = [] := by
  simp only [closeListsTo]
  split_ifs with hc
  · simp
  · exact List.length_eq_zero.mp (by omega)

theorem closeListsTo_empty (st : MDState) (h : st.listType = []) : closeListsTo 0 st = st := by
  simp [closeListsTo, h]

theorem map_const_events (l : List Str) (e : MDEvent) :
    l.map (fun _ => e) = List.replicate l.length e := by
  induction l with
  | nil => rfl
  | cons a t ih => simp [ih, List.replicate_succ]

theorem closeListsTo_events (target : Nat) (st : MDState) (hg : preGood st) :
    preGood (closeListsTo target st) := by
  obtain ⟨h1, h2, h3, h4⟩ := hg
  simp only [closeListsTo]
  split_ifs with hc
  · refine ⟨?_, ?_, ?_, ?_⟩
    · simpa [map_const_events, List.count_append, List.count_replicate] using h1
    · simp [map_const_events, List.count_append, List.count_replicate]
      omega
    · simpa [map_const_events, List.count_append, List.count_replicate] using h3
    · intro hp
      refine lastLineEmpty_append_ne _ st _ rfl (h4 hp) ?_
      intro l hl
      obtain ⟨t, _, rfl⟩ := List.mem_map.mp hl
      rfl
  · exact ⟨h1, h2, h3, h4⟩

theorem listOpen_rec_events (st : MDState) (tag : Str) (hg : preGood st) :
    preGood { st with listType := st.listType ++ [tag],
                      lines := st.lines ++ [str ("<") ++ tag ++ str (">")],
                      events := st.events ++ [MDEvent.listOpen] } := by
  obtain ⟨h1, h2, h3, h4⟩ := hg
  refine ⟨?_, ?_, ?_, ?_⟩
  · simpa [List.count_append] using h1
  · simp [List.count_append]
    omega
  · simpa [List.count_append] using h3
  · intro hp
    rw [lastLineEmpty_mk]
    rfl

theorem listIter_fields (pat : Str → Option (Str × Str)) (tag : Str) (st : MDState) (line : Str) :
    (listIter pat tag st line).1.inBlockquote = st.inBlockquote ∧
    (listIter pat tag st line).1.inParagraph = st.inParagraph ∧
    (listIter pat tag st line).1.inFence = st.inFence ∧
    (listIter pat tag st line).1.extracted = st.extracted ∧
    (listIter pat tag st line).1.lineEmpty = st.lineEmpty := by
  simp only [listIter]
  rcases pat line with _ | ⟨ind, content⟩ <;>
    dsimp only <;>
    split_ifs <;>
    simp [closeListsTo_inBlockquote, closeListsTo_inParagraph, closeListsTo_inFence,
      closeListsTo_extracted, closeListsTo_lineEmpty]

theorem listIter_events (pat : Str → Option (Str × Str)) (tag : Str) (st : MDState) (line : Str)
    (hg : preGood st) : preGood (listIter pat tag st line).1 := by
  simp only [listIter]
  rcases pat line with _ | ⟨ind, content⟩
  · dsimp only
    split_ifs
    · exact closeListsTo_events 0 _ hg
    · exact hg
  · dsimp only
    split_ifs
    · exact closeListsTo_events 0 _ (closeListsTo_events _ _ (listOpen_rec_events st tag hg))
    · exact closeListsTo_events 0 _ (closeListsTo_events _ _ hg)
    · exact closeListsTo_events _ _ (listOpen_rec_events st tag hg)
    · exact closeListsTo_events _ _ hg

theorem listIter_line_ne (pat : Str → Option (Str × Str)) (tag : Str) (st : MDState) (line : Str)
    (h : line ≠ []) : (listIter pat tag st line).2 ≠ [] := by
  simp only [listIter]
  rcases pat line with _ | ⟨ind, content⟩ <;> dsimp only <;> split_ifs <;> simp_all <;>
    exact fun hc hc2 => absurd hc (by decide)

theorem listStep_fields (st : MDState) (line : Str) :
    (listStep st line).1.inBlockquote = st.inBlockquote ∧
    (listStep st line).1.inParagraph = st.inParagraph ∧
    (listStep st line).1.inFence = st.inFence ∧
    (listStep st line).1.extracted = st.extracted ∧
    (listStep st line).1.lineEmpty = st.lineEmpty := by
  simp only [listStep]
  obtain ⟨a1, a2, a3, a4, a5⟩ := listIter_fields (listUl '-') (str ("ul")) st line
  obtain ⟨b1, b2, b3, b4, b5⟩ := listIter_fields (listUl '*') (str ("ul"))
    (listIter (listUl '-') (str ("ul")) st line).1 (listIter (listUl '-') (str ("ul")) st line).2
  obtain ⟨c1, c2, c3, c4, c5⟩ := listIter_fields listOl (str ("ol"))
    (listIter (listUl '*') (str ("ul")) (listIter (listUl '-') (str ("ul")) st line).1
      (listIter (listUl '-') (str ("ul")) st line).2).1
    (listIter (listUl '*') (str ("ul")) (listIter (listUl '-') (str ("ul")) st line).1
      (listIter (listUl '-') (str ("ul")) st line).2).2
  exact ⟨c1.trans (b1.trans a1), c2.trans (b2.trans a2), c3.trans (b3.trans a3),
    c4.trans (b4.trans a4), c5.trans (b5.trans a5)⟩

theorem listStep_events (st : MDState) (line : Str) (hg : preGood st) :
    preGood (listStep st line).1 := by
  simp only [listStep]
  exact listIter_events _ _ _ _ (listIter_events _ _ _ _ (listIter_events _ _ _ _ hg))

theorem listStep_line_ne (st : MDState) (line : Str) (h : line ≠ []) :
    (listStep st line).2 ≠ [] := by
  simp only [listStep]
  exact listIter_line_ne _ _ _ _ (listIter_line_ne _ _ _ _ (listIter_line_ne _ _ _ _ h))

theorem bqStep_line_ne (st : MDState) (v : Str) (h : stripBq v ≠ []) :
    (blockquoteStep st v).2 ≠ [] := by
  have hv : v ≠ [] := by
    intro hc
    subst hc
    exact h rfl
  simp only [blockquoteStep, stripBq] at h ⊢
  split_ifs at h ⊢ <;> simp_all

theorem bqStep_blank_flag (st : MDState) (v : Str) (h : st.lineEmpty = true) :
    (blockquoteStep st v).1.inBlockquote = false ∧ (blockquoteStep st v).2 = v := by
  simp only [blockquoteStep]
  split_ifs <;> simp_all

theorem listIter_blank (pat : Str → Option (Str × Str)) (tag : Str) (st : MDState)
    (h : st.lineEmpty = true) (hpat : pat [] = none) :
    listIter pat tag st [] = (closeListsTo 0 st, []) := by
  simp only [listIter, hpat]
  rw [if_pos h]

theorem listStep_blank (st : MDState) (h : st.lineEmpty = true) :
    listStep st [] = (closeListsTo 0 st, []) := by
  have hle : (closeListsTo 0 st).lineEmpty = st.lineEmpty := closeListsTo_lineEmpty 0 st
  have hzero := closeListsTo_zero st
  simp only [listStep]
  rw [listIter_blank _ _ st h rfl]
  dsimp only
  rw [listIter_blank _ _ _ (hle.trans h) rfl, closeListsTo_empty _ hzero]
  dsimp only
  rw [listIter_blank _ _ _ (hle.trans h) rfl, closeListsTo_empty _ hzero]

theorem pStep_fields (st : MDState) (v : Str) :
    (paragraphStep st v).1.inBlockquote = st.inBlockquote ∧
    (paragraphStep st v).1.listType = st.listType ∧
    (paragraphStep st v).1.inFence = st.inFence ∧
    (paragraphStep st v).1.extracted = st.extracted ∧
    (paragraphStep st v).1.lineEmpty = st.lineEmpty := by
  simp only [paragraphStep]
  split_ifs <;> simp

theorem pStep_line (st : MDState) (v : Str) : (paragraphStep st v).2 = v := by
  simp [paragraphStep]

theorem pStep_events (st : MDState) (v : Str) (hg : preGood st) :
    preGood (paragraphStep st v).1 := by
  obtain ⟨h1, h2, h3, h4⟩ := hg
  simp only [paragraphStep]
  by_cases c1 : lastLineEmpty st = true ∧ st.lineEmpty = false ∧ noParagraph v = false
  · have hpar : st.inParagraph = false := by
      cases hp : st.inParagraph
      · rfl
      · have hll := h4 hp
        rw [hll] at c1
        exact absurd c1.1 (by decide)
    rw [if_pos c1]
    split_ifs with c2
    · exact absurd (c1.2.1.symm.trans c2.1) (by decide)
    refine ⟨?_, ?_, ?_, ?_⟩
    · simpa [List.count_append, hpar] using h1
    · simpa [List.count_append] using h2
    · simp [List.count_append, hpar] at h3
      simp [List.count_append, h3]
    · intro hp
      rw [lastLineEmpty_mk]
      rfl
  · rw [if_neg c1]
    by_cases c2 : st.lineEmpty = true ∧ lastLineEmpty st = false ∧ st.inParagraph = true
    · rw [if_pos c2]
      refine ⟨?_, ?_, ?_, ?_⟩
      · simpa [List.count_append] using h1
      · simpa [List.count_append] using h2
      · simp [List.count_append, c2.2.2] at h3
        simp [List.count_append, h3]
      · intro hp
        simp at hp
    · rw [if_neg c2]
      exact ⟨h1, h2, h3, h4⟩

theorem pStep_blank_flag (st : MDState) (h : st.lineEmpty = true)
    (hD : st.inParagraph = true → lastLineEmpty st = false) :
    (paragraphStep st []).1.inParagraph = false := by
  simp only [paragraphStep]
  have c1f : ¬(lastLineEmpty st = true ∧ st.lineEmpty = false ∧ noParagraph [] = false) := by
    intro hc
    rw [h] at hc
    exact absurd hc.2.1 (by decide)
  rw [if_neg c1f]
  by_cases hpar : st.inParagraph = true
  · rw [if_pos ⟨h, hD hpar, hpar⟩]
  · rw [if_neg (fun hc => hpar hc.2.2)]
    exact Bool.not_eq_true _ ▸ (by simpa using hpar)

theorem processLine_nonempty_err (base : Str) (st : MDState) (raw : Str) (e : PyErr)
    (hraw : raw.isEmpty = false)
    (hfence3 : raw.take 3 ≠ str ("```"))
    (hf : st.inFence = false)
    (hin : inlinePhase base st.extracted raw = .error e) :
    processLine base st raw = .error e := by
  have hfs : fenceStep { st with lineEmpty := false } raw =
      ({ st with lineEmpty := false }, raw) := by
    simp [fenceStep, hfence3, hf]
  simp only [processLine, hraw, hfs]
  simp [hf, hin]

theorem goodState_init : goodState initState := by
  refine ⟨rfl, rfl, rfl, rfl, rfl, ?_⟩
  intro h
  cases h

theorem processLine_blank_good (base : Str) (st st2 : MDState)
    (hg : goodState st)
    (he : processLine base st [] = .ok st2) :
    goodState st2 ∧ st2.inBlockquote = false ∧ st2.listType = [] ∧ st2.inParagraph = false := by
  obtain ⟨h1, h2, h3, hF, hE, h4⟩ := hg
  rw [processLine_blank base st hF] at he
  dsimp only at he
  set st' : MDState := { st with lineEmpty := true, extracted := [] } with hst'
  have hg' : preGood st' := ⟨h1, h2, h3, h4⟩
  obtain ⟨hbqF, hbqL⟩ := bqStep_blank_flag st' [] rfl
  have hbqG : preGood (blockquoteStep st' []).1 := bqStep_events st' [] hg'
  have hbqLE : (blockquoteStep st' []).1.lineEmpty = true :=
    ((bqStep_fields st' []).2.2.2.2).trans rfl
  have hlst : listStep (blockquoteStep st' []).1 (blockquoteStep st' []).2 =
      (closeListsTo 0 (blockquoteStep st' []).1, []) := by
    rw [hbqL]
    exact listStep_blank _ hbqLE
  rw [hlst] at he
  dsimp only at he
  set c : MDState := closeListsTo 0 (blockquoteStep st' []).1 with hc
  have hcG : preGood c := closeListsTo_events _ _ hbqG
  have hcLE : c.lineEmpty = true := (closeListsTo_lineEmpty _ _).trans hbqLE
  have hcBQ : c.inBlockquote = false := (closeListsTo_inBlockquote _ _).trans hbqF
  have hcLT : c.listType = [] := closeListsTo_zero _
  have hpG : preGood (paragraphStep c []).1 := pStep_events c [] hcG
  have hpP : (paragraphStep c []).1.inParagraph = false := pStep_blank_flag c hcLE hcG.2.2.2
  obtain ⟨hpBQ, hpLT, hpF, hpE, hpLE⟩ := pStep_fields c []
  injection he with hee
  subst hee
  refine ⟨⟨hpG.1, hpG.2.1, hpG.2.2.1, ?_, ?_, ?_⟩, hpBQ.trans hcBQ, hpLT.trans hcLT, hpP⟩
  · exact hpF.trans ((closeListsTo_inFence _ _).trans (((bqStep_fields st' []).2.2.1).trans hF))
  · exact hpE.trans ((closeListsTo_extracted _ _).trans ((bqStep_fields st' []).2.2.2.1))
  · intro hp
    exact absurd (hpP.symm.trans hp) (by decide)

theorem processLine_nonempty_good (base : Str) (st : MDState) (raw : Str) (st2 : MDState)
    (hg : goodState st)
    (hraw : raw.isEmpty = false)
    (hfence3 : raw.take 3 ≠ str ("```"))
    (hnem : Except.map stripBq (inlinePhase base [] raw) ≠ Except.ok [])
    (he : processLine base st raw = .ok st2) :
    goodState st2 := by
  obtain ⟨h1, h2, h3, hF, hE, h4⟩ := hg
  rcases hv : inlinePhase base [] raw with e | v
  · rw [processLine_nonempty_err base st raw e hraw hfence3 hF (by rw [hE]; exact hv)] at he
    cases he
  · have hv2 : inlinePhase base st.extracted raw = .ok v := by
      rw [hE]
      exact hv
    rw [processLine_nonempty_noFence base st raw v hraw hfence3 hF hv2] at he
    dsimp only at he
    have hsb : stripBq v ≠ [] := by
      intro hcon
      apply hnem
      rw [hv]
      simp [Except.map, hcon]
    set st' : MDState := { st with lineEmpty := false, extracted := [] } with hst'
    have hg' : preGood st' := ⟨h1, h2, h3, h4⟩
    have hbqG : preGood (blockquoteStep st' v).1 := bqStep_events st' v hg'
    have hbqNE : (blockquoteStep st' v).2 ≠ [] := bqStep_line_ne st' v hsb
    have hlsG : preGood (listStep (blockquoteStep st' v).1 (blockquoteStep st' v).2).1 :=
      listStep_events _ _ hbqG
    have hlsNE : (listStep (blockquoteStep st' v).1 (blockquoteStep st' v).2).2 ≠ [] :=
      listStep_line_ne _ _ hbqNE
    have hpG : preGood (paragraphStep
        (listStep (blockquoteStep st' v).1 (blockquoteStep st' v).2).1
        (listStep (blockquoteStep st' v).1 (blockquoteStep st' v).2).2).1 :=
      pStep_events _ _ hlsG
    have hpL : (paragraphStep
        (listStep (blockquoteStep st' v).1 (blockquoteStep st' v).2).1
        (listStep (blockquoteStep st' v).1 (blockquoteStep st' v).2).2).2 =
        (listStep (blockquoteStep st' v).1 (blockquoteStep st' v).2).2 := pStep_line _ _
    obtain ⟨hpBQ, hpLT, hpF, hpE, hpLE⟩ := pStep_fields
      (listStep (blockquoteStep st' v).1 (blockquoteStep st' v).2).1
      (listStep (blockquoteStep st' v).1 (blockquoteStep st' v).2).2
    obtain ⟨hlB, hlP, hlF, hlX, hlE⟩ := listStep_fields
      (blockquoteStep st' v).1 (blockquoteStep st' v).2
    injection he with hee
    subst hee
    refine ⟨hpG.1, hpG.2.1, hpG.2.2.1, ?_, ?_, ?_⟩
    · exact hpF.trans (hlF.trans (((bqStep_fields st' v).2.2.1).trans hF))
    · exact hpE.trans (hlX.trans ((bqStep_fields st' v).2.2.2.1))
    · intro hp
      rw [lastLineEmpty_mk, hpL]
      rcases hq : (listStep (blockquoteStep st' v).1 (blockquoteStep st' v).2).2 with _ | ⟨a, t⟩
      · exact absurd hq hlsNE
      · rfl

theorem parseLines_good (base : Str) (ls : List Str) (st st2 : MDState)
    (hg : goodState st)
    (hfence : ∀ l ∈ ls, l.take 3 ≠ str ("```"))
    (hnem : ∀ l ∈ ls, l ≠ [] → Except.map stripBq (inlinePhase base [] l) ≠ Except.ok [])
    (he : parseLines base st ls = .ok st2) :
    goodState st2 := by
  induction ls generalizing st with
  | nil =>
    simp only [parseLines] at he
    injection he with hee
    subst hee
    exact hg
  | cons l rest ih =>
    simp only [parseLines] at he
    rcases hp : processLine base st l with e | mid
    · simp only [hp] at he
      cases he
    · simp only [hp] at he
      have hgmid : goodState mid := by
        by_cases hl : l = []
        · subst hl
          exact (processLine_blank_good base st mid hg hp).1
        · have hraw : l.isEmpty = false := by
            rcases l with _ | ⟨a, t⟩
            · exact absurd rfl hl
            · rfl
          exact processLine_nonempty_good base st l mid hg hraw
            (hfence l (List.mem_cons_self l rest)) (hnem l (List.mem_cons_self l rest) hl) hp
      exact ih mid hgmid (fun x hx => hfence x (List.mem_cons_of_mem l hx))
        (fun x hx => hnem x (List.mem_cons_of_mem l hx)) he

theorem parseLines_append_ok (base : Str) (l1 l2 : List Str) (st st2 : MDState)
    (h : parseLines base st (l1 ++ l2) = .ok st2) :
    ∃ m, parseLines base st l1 = .ok m ∧ parseLines base m l2 = .ok st2 := by
  induction l1 generalizing st with
  | nil => exact ⟨st, rfl, h⟩
  | cons a t ih =>
    simp only [List.cons_append, parseLines] at h ⊢
    rcases hp : processLine base st a with e | mid
    · simp only [hp] at h
      cases h
    · simp only [hp] at h ⊢
      exact ih mid h

set_option maxHeartbeats 1000000 in
/-- C3 (amended): over any run of the parse loop in which no line opens or
closes a fenced block, no nonempty line renders (after the blockquote marker
is stripped) to an empty string, and the input ends with a blank line, the
synthetic blockquote, list and paragraph tags emitted into the output buffer
are exactly balanced. -/
theorem C3_balance (base : Str) (ls : List Str) (st : MDState)
    (hfence : ∀ l ∈ ls, l.take 3 ≠ str ("```"))
    (hnem : ∀ l ∈ ls, l ≠ [] → Except.map stripBq (inlinePhase base [] l) ≠ Except.ok [])
    (hlast : ls.getLast? = some [])
    (he : parseLines base initState ls = .ok st) :
    balancedEvents st.events := by
  have hne : ls ≠ [] := by
    intro hc
    rw [hc] at hlast
    cases hlast
  obtain ⟨init, rfl⟩ : ∃ init, ls = init ++ [[]] := by
    refine ⟨ls.dropLast, ?_⟩
    have hsome := List.getLast?_eq_getLast ls hne
    rw [hsome] at hlast
    injection hlast with hgl
    conv_lhs => rw [← List.dropLast_append_getLast hne]
    rw [hgl]
  obtain ⟨m, hm1, hm2⟩ := parseLines_append_ok base init [[]] initState st he
  have hgm : goodState m := parseLines_good base init initState m goodState_init
    (fun l hl => hfence l (List.mem_append_left _ hl))
    (fun l hl => hnem l (List.mem_append_left _ hl)) hm1
  simp only [parseLines] at hm2
  rcases hp : processLine base m [] with e | st2
  · simp only [hp] at hm2
    cases hm2
  · simp only [hp] at hm2
    injection hm2 with h2
    subst h2
    obtain ⟨⟨g1, g2, g3, _, _, _⟩, f1, f2, f3⟩ := processLine_blank_good base m st2 hgm hp
    rw [f1] at g1
    rw [f2] at g2
    rw [f3] at g3
    refine ⟨?_, ?_, ?_⟩
    · simpa using g1
    · simpa using g2
    · simpa using g3

theorem C3_balance_witness :
    (∀ l ∈ [str ("> q"), str ("* i"), ([] : Str)], l.take 3 ≠ str ("```")) ∧
    (∀ l ∈ [str ("> q"), str ("* i"), ([] : Str)], l ≠ [] →
      Except.map stripBq (inlinePhase [] [] l) ≠ Except.ok []) ∧
    [str ("> q"), str ("* i"), ([] : Str)].getLast? = some [] ∧
    balancedEvents [MDEvent.bqOpen, MDEvent.listOpen, MDEvent.bqClose, MDEvent.listClose] :=
  ⟨by decide, by decide, by decide,
    C3_balance [] [str ("> q"), str ("* i"), []]
      { lines := [str ("<blockquote>"), str ("q"), str ("<ul>"), str ("<li>i</li>"),
                  str ("</blockquote>"), str ("</ul>"), []],
        events := [MDEvent.bqOpen, MDEvent.listOpen, MDEvent.bqClose, MDEvent.listClose],
        extracted := [], lineEmpty := true, inFence := false, inParagraph := false,
        inBlockquote := false, listType := [] }
      (by decide) (by decide) (by decide) (by decide)⟩

theorem C4_code_span_protection_witness :
    (str ("a*b*c") : Str) ≠ [] ∧
    (∀ c ∈ (str ("a*b*c") : Str), c ≠ btick ∧ c ≠ '\r' ∧ c ≠ '\t' ∧ c ≠ '\n') ∧
    convertState Unit okDecode [] (btick :: (str ("a*b*c") ++ [btick])) =
      .ok (none,
        { lines := [str ("<p>"), str ("<code>") ++ escapeHtml (str ("a*b*c")) ++ str ("</code>"),
                    str ("</p>"), [], []],
          events := [MDEvent.pOpen, MDEvent.pClose], extracted := [], lineEmpty := true,
          inFence := false, inParagraph := false, inBlockquote := false, listType := [] }) :=
  ⟨by decide, by decide,
    C4_code_span_protection (str ("a*b*c")) (by decide) (by decide)⟩
